import Mathlib

/-!
# UpAndRunning2: the read API (`routes/api.go`)

A shallow embedding of the three handlers `ApiStatus`, `ApiResults` and
`ApiWebsites` of `routes/api.go`, of the SQL statements they send, and of the
Go library functions they call (`strconv.Atoi`, `float64` arithmetic,
`strconv.FormatFloat`), followed by theorems about them.

Conventions of the embedding:

* a store state is the content of the two tables plus the fault, if any, that
  each statement issued by a handler meets (`Database.faults`);
* `ORDER BY` is a stable sort of the rows in table order, strings are compared
  by code point; `LIMIT`/`OFFSET` are `take`/`drop`;
* a handler run yields the list of statements it sent and the response it
  wrote (`Outcome`).
-/

namespace UpAndRunning2

/-! ## Tables -/

/-- A row of the table `websites`, with the columns the statements of
`routes/api.go` read. The flags are integer columns tested with `= 1`. -/
structure Website where
  id : Int
  name : String
  protocol : String
  url : String
  enabled : Int
  visible : Int
deriving DecidableEq, Repr

/-- A row of the table `checks`, with the columns the statements of
`routes/api.go` read. -/
structure Check where
  id : Int
  websiteId : Int
  statusCode : String
  statusText : String
  responseTime : String
  time : String
deriving DecidableEq, Repr

/-- What can go wrong with a statement: nothing; an error returned by the call
`db.Query` or by a `rows.Scan`; or an iteration that ends early, `rows.Next()`
returning false after `rowsRead` rows at most, with an error that only
`rows.Err()` (or, for `QueryRow`, its `Scan`) reports. -/
inductive Fault where
  | none
  | error
  | interrupted (rowsRead : Nat)
deriving DecidableEq, Repr

/-- The store behind `lib.GetDatabase()`: both tables in row order, and for the
n-th statement a handler issues (counted from 0) the fault it meets. -/
structure Database where
  websites : List Website
  checks : List Check
  faults : Nat → Fault

/-- Whether the n-th statement a handler issues (counted from 0) meets a fault:
a handler that reads it with `QueryRow(...).Scan(...)`, or with `db.Query` and a
loop followed by `rows.Err()`, then gets an error other than `sql.ErrNoRows`. -/
def Database.failing (db : Database) (n : Nat) : Bool :=
  match db.faults n with
  | .none => false
  | _ => true

/-! ## SQL fragments -/

/-- Whether `f` holds of some suffix of the list, the list itself included. -/
def anySuffix (f : List Char → Bool) : List Char → Bool
  | [] => f []
  | c :: cs => f (c :: cs) || anySuffix f cs

/-- The SQL operator `LIKE` on character lists: `%` matches any run of
characters, `_` any single one, every other character itself. -/
def likeMatch : List Char → List Char → Bool
  | [], s => s.isEmpty
  | p :: ps, s =>
    if p == '%' then anySuffix (likeMatch ps) s
    else match s with
      | [] => false
      | c :: cs => (p == '_' || p == c) && likeMatch ps cs

/-- The SQL expression `s LIKE pattern`. -/
def LIKE (s pattern : String) : Bool :=
  likeMatch pattern.data s.data

/-- The filter `(checks.statusCode LIKE '2%' OR checks.statusCode LIKE '3%')` of
the availability statement of `ApiStatus` (line 65). -/
def successFilter (statusCode : String) : Bool :=
  LIKE statusCode "2%" || LIKE statusCode "3%"

/-- The filter `(checks.statusCode NOT LIKE '2%' AND checks.statusCode NOT LIKE
'3%')` of the last-failure statement of `ApiStatus` (line 51). -/
def failureFilter (statusCode : String) : Bool :=
  !LIKE statusCode "2%" && !LIKE statusCode "3%"

/-- The rows of `FROM checks, websites WHERE checks.websiteId = websites.id`:
every pair of a check and a website row with the matching id. -/
def joined (db : Database) : List (Check × Website) :=
  db.checks.flatMap fun c =>
    (db.websites.filter fun w => c.websiteId == w.id).map fun w => (c, w)

/-- The order of `ORDER BY checks.id DESC` on joined rows. -/
def idDesc (a b : Check × Website) : Prop := b.1.id ≤ a.1.id

instance : DecidableRel idDesc := fun a b => inferInstanceAs (Decidable (b.1.id ≤ a.1.id))

/-- The order of `ORDER BY time DESC` on joined rows; the timestamps are text
in the form the store prints them, compared character by character. -/
def timeDesc (a b : Check × Website) : Prop := b.1.time.data ≤ a.1.time.data

instance : DecidableRel timeDesc :=
  fun a b => inferInstanceAs (Decidable (b.1.time.data ≤ a.1.time.data))

/-- The order of `ORDER BY name` on website rows. -/
def nameAsc (a b : Website) : Prop := a.name.data ≤ b.name.data

instance : DecidableRel nameAsc :=
  fun a b => inferInstanceAs (Decidable (a.name.data ≤ b.name.data))

/-- The order of the outer `ORDER BY name` of the status statement of
`ApiWebsites` on the rows of its subquery. -/
def rowNameAsc (a b : Check × Website) : Prop := a.2.name.data ≤ b.2.name.data

instance : DecidableRel rowNameAsc :=
  fun a b => inferInstanceAs (Decidable (a.2.name.data ≤ b.2.name.data))

/-- The errors a statement can come back with. -/
inductive SqlError where
  | ErrNoRows
  | other
deriving DecidableEq, Repr

/-- The call `db.QueryRow(...).Scan(...)`: the first row of the result, `sql.ErrNoRows`
when there is none, another error when the statement meets a fault (`Scan` of a
`Row` reports the error of the call, of the iteration and of the scan alike). -/
def QueryRow {α : Type} (failed : Bool) (rows : List α) : Except SqlError α :=
  if failed then .error .other
  else match rows with
    | [] => .error .ErrNoRows
    | r :: _ => .ok r

/-- The call `db.Query(...)` followed by the loop over `rows.Next()`, `rows.Scan`
and `rows.Err()`: all rows, or an error. -/
def Query {α : Type} (failed : Bool) (rows : List α) : Except SqlError (List α) :=
  if failed then .error .other else .ok rows

/-- The call `db.Query(...)` followed by the loop over `rows.Next()` and
`rows.Scan` with no call of `rows.Err()` after it, as in `ApiWebsites`: an error of
the call or of a `Scan` is noticed, an iteration that ends early is not and
leaves the rows read so far. -/
def readRows {α : Type} (fault : Fault) (rows : List α) : Except SqlError (List α) :=
  match fault with
  | .none => .ok rows
  | .error => .error .other
  | .interrupted rowsRead => .ok (rows.take rowsRead)

/-- The clause `LIMIT limit OFFSET offset`: skip `offset` rows, keep `limit`. The
store rejects a negative argument. -/
def limitOffset {α : Type} (limit offset : Int) (rows : List α) : Option (List α) :=
  if limit < 0 ∨ offset < 0 then none
  else some ((rows.drop offset.toNat).take limit.toNat)

/-- Line 39: `SELECT ... FROM checks, websites WHERE checks.websiteId = websites.id
AND websites.url = ? AND websites.enabled = 1 ORDER BY checks.id DESC LIMIT 1`. -/
def statusRows (db : Database) (url : String) : List (Check × Website) :=
  (((joined db).filter fun r => r.2.url == url && r.2.enabled == 1).insertionSort idDesc).take 1

/-- Line 51: the statement of line 39 restricted to the rows with
`checks.statusCode NOT LIKE '2%' AND checks.statusCode NOT LIKE '3%'`. -/
def lastFailRows (db : Database) (url : String) : List (Check × Website) :=
  (((joined db).filter fun r =>
      failureFilter r.1.statusCode && r.2.url == url && r.2.enabled == 1).insertionSort
    idDesc).take 1

/-- Line 65, first subquery: `SELECT COUNT(checks.id) FROM checks, websites WHERE
checks.websiteId = websites.id AND (checks.statusCode LIKE '2%' OR checks.statusCode
LIKE '3%') AND websites.url = ?`. -/
def countUps (db : Database) (url : String) : Nat :=
  ((joined db).filter fun r => successFilter r.1.statusCode && r.2.url == url).length

/-- Line 65, second subquery: `SELECT COUNT(checks.id) FROM checks, websites WHERE
checks.websiteId = websites.id AND websites.url = ?`. -/
def countTotal (db : Database) (url : String) : Nat :=
  ((joined db).filter fun r => r.2.url == url).length

/-- Line 65: `SELECT (...) AS ups, (...) AS total FROM checks LIMIT 1`, one row of
both counts per row of `checks`, cut to the first. -/
def countRows (db : Database) (url : String) : List (Int × Int) :=
  (db.checks.map fun _ => ((countUps db url : Int), (countTotal db url : Int))).take 1

/-- The rows of line 126 before the window: `FROM checks, websites WHERE
checks.websiteId = websites.id AND websites.url = ? AND websites.enabled = 1 ORDER BY
time DESC`. -/
def resultRowsSorted (db : Database) (url : String) : List (Check × Website) :=
  ((joined db).filter fun r => r.2.url == url && r.2.enabled == 1).insertionSort timeDesc

/-- Line 126: the sorted rows cut by `LIMIT ? OFFSET ?`; `none` when the store
rejects the window. -/
def resultRows (db : Database) (url : String) (limit offset : Int) :
    Option (List (Check × Website)) :=
  limitOffset limit offset (resultRowsSorted db url)

/-- Line 175: `SELECT name, protocol, url FROM websites WHERE enabled = 1 AND
visible = 1 ORDER BY name`. -/
def websiteRows (db : Database) : List Website :=
  (db.websites.filter fun w => w.enabled == 1 && w.visible == 1).insertionSort nameAsc

/-- Line 207: `SELECT statusCode, statusText FROM (SELECT name, statusCode,
statusText FROM checks, websites WHERE checks.websiteId = websites.id AND enabled = 1
AND visible = 1 ORDER BY checks.id DESC LIMIT ?) AS t ORDER BY name`. -/
def websiteStatusRows (db : Database) (totalRows : Nat) : List (Check × Website) :=
  ((((joined db).filter fun r => r.2.enabled == 1 && r.2.visible == 1).insertionSort
    idDesc).take totalRows).insertionSort rowNameAsc

/-! ## Go library functions -/

/-- The function `strconv.Atoi` for a 64-bit `int`: an optional sign, then one or
more decimal digits, the value within the range of `int`; `none` is the error
result. -/
def Atoi (s : String) : Option Int :=
  let body : Bool × List Char :=
    match s.data with
    | '-' :: t => (true, t)
    | '+' :: t => (false, t)
    | cs => (false, cs)
  if body.2.isEmpty then none
  else if body.2.all Char.isDigit then
    let n : Nat := body.2.foldl (fun acc c => acc * 10 + (c.toNat - 48)) 0
    let v : Int := if body.1 then -(n : Int) else (n : Int)
    if -9223372036854775808 ≤ v ∧ v ≤ 9223372036854775807 then some v else none
  else none

/-- A value of Go's `float64`: not-a-number, an infinity, or the finite number
`(-1)^neg * mant * 2^exp`. -/
inductive Float64 where
  | nan
  | inf (neg : Bool)
  | fin (neg : Bool) (mant : Nat) (exp : Int)
deriving DecidableEq, Repr

/-- The number of binary digits of `n`, by halving at most `fuel` times. -/
def bitLengthAux : Nat → Nat → Nat
  | 0, _ => 0
  | fuel + 1, n => if n = 0 then 0 else bitLengthAux fuel (n / 2) + 1

/-- The number of binary digits of `n` (0 for 0). -/
def bitLength (n : Nat) : Nat := bitLengthAux n n

/-- The integer nearest to `num / den`, a tie going to the even one. -/
def roundHalfEven (num den : Nat) : Nat :=
  let q := num / den
  let r := num % den
  if 2 * r < den then q
  else if den < 2 * r then q + 1
  else if q % 2 = 0 then q else q + 1

/-- The exponent `k` of the unit in the last place of the positive quotient
`num / den` in a 53-bit significand: `2^(k+52) ≤ num / den < 2^(k+53)`. -/
def ulpExp (num den : Nat) : Int :=
  let d : Int := (bitLength num : Int) - (bitLength den : Int)
  let e : Int :=
    if den * 2 ^ d.toNat ≤ num * 2 ^ (-d).toNat then d else d - 1
  e - 52

/-- Rounding of the quotient `num / den` (`den > 0`) to the nearest `float64`, ties to
even, as every IEEE-754 operation does. The exponent range of `float64` is not
represented: the operands of `ApiStatus` are converted `int` values, so every
quotient and product lies between `2^-63` and `2^70` or is zero. -/
def roundFloat (neg : Bool) (num den : Nat) : Float64 :=
  if num = 0 then .fin neg 0 0
  else
    let k := ulpExp num den
    .fin neg (roundHalfEven (num * 2 ^ (-k).toNat) (den * 2 ^ k.toNat)) k

/-- The conversion `float64(n)` of an `int`. -/
def float64 (n : Int) : Float64 :=
  roundFloat (decide (n < 0)) n.natAbs 1

/-- The quotient `a / b` of two `float64` values. -/
def Float64.div : Float64 → Float64 → Float64
  | .nan, _ => .nan
  | _, .nan => .nan
  | .inf _, .inf _ => .nan
  | .inf s, .fin t _ _ => .inf (s != t)
  | .fin s _ _, .inf t => .fin (s != t) 0 0
  | .fin s m e, .fin t n f =>
    if n = 0 then (if m = 0 then .nan else .inf (s != t))
    else roundFloat (s != t) (m * 2 ^ (e - f).toNat) (n * 2 ^ (f - e).toNat)

/-- The product `a * b` of two `float64` values. -/
def Float64.mul : Float64 → Float64 → Float64
  | .nan, _ => .nan
  | _, .nan => .nan
  | .inf s, .inf t => .inf (s != t)
  | .inf s, .fin t n _ => if n = 0 then .nan else .inf (s != t)
  | .fin s m _, .inf t => if m = 0 then .nan else .inf (s != t)
  | .fin s m e, .fin t n f =>
    roundFloat (s != t) (m * n * 2 ^ (e + f).toNat) (2 ^ (-(e + f)).toNat)

/-- The decimal digits of `n`, padded with zeros on the left to `width` digits. -/
def padDigits (width n : Nat) : String :=
  let ds := Nat.toDigits 10 n
  String.mk (List.replicate (width - ds.length) '0' ++ ds)

/-- The text of `h / 10^prec` with `prec` digits after the point. -/
def fixedText (prec h : Nat) : String :=
  toString (h / 10 ^ prec) ++ (if prec = 0 then "" else "." ++ padDigits prec (h % 10 ^ prec))

/-- The call `strconv.FormatFloat(f, 'f', prec, 64)`: the exact value of `f`
rounded to `prec` decimals, a tie going to the even digit. -/
def FormatFloat (f : Float64) (prec : Nat) : String :=
  match f with
  | .nan => "NaN"
  | .inf neg => if neg then "-Inf" else "+Inf"
  | .fin neg m e =>
    (if neg then "-" else "") ++
      fixedText prec (roundHalfEven (m * 10 ^ prec * 2 ^ e.toNat) (2 ^ (-e).toNat))

/-! ## Responses -/

/-- Modelled from the spec: the type `WebsiteData` is declared outside
`routes/api.go`; its three positional fields are the website's id, name and
"protocol://url". -/
structure WebsiteData where
  id : Int
  name : String
  url : String
deriving DecidableEq, Repr

/-- Modelled from the spec: the type `WebsiteAvailability` is declared outside
`routes/api.go`; its four positional fields are the up count, the down count,
the total and the percentage text. -/
structure WebsiteAvailability where
  ups : Int
  downs : Int
  total : Int
  average : String
deriving DecidableEq, Repr

/-- Modelled from the spec: the type `WebsiteCheckResult` is declared outside
`routes/api.go`; its three positional fields are the status text, the response
time and the timestamp. -/
structure WebsiteCheckResult where
  status : String
  responseTime : String
  time : String
deriving DecidableEq, Repr

/-- Modelled from the spec: the type `DetailedWebsiteResponse` is declared
outside `routes/api.go`; its five positional fields are the success flag, the
website, the availability, the newest check and the newest failed check. -/
structure DetailedWebsiteResponse where
  success : Bool
  websiteData : WebsiteData
  availability : WebsiteAvailability
  lastCheckResult : WebsiteCheckResult
  lastFailedCheckResult : WebsiteCheckResult
deriving DecidableEq, Repr

/-- Modelled from the spec: the type `ResultsResponse` is declared outside
`routes/api.go`; its two positional fields are the success flag and the results. -/
structure ResultsResponse where
  success : Bool
  results : List WebsiteCheckResult
deriving DecidableEq, Repr

/-- Modelled from the spec: the type `BasicWebsite` is declared outside
`routes/api.go`; its four positional fields are name, protocol, url and the
field `Status` the second loop of `ApiWebsites` assigns. -/
structure BasicWebsite where
  name : String
  protocol : String
  url : String
  Status : String
deriving DecidableEq, Repr

/-- Modelled from the spec: the type `WebsiteResponse` is declared outside
`routes/api.go`; its two positional fields are the success flag and the websites. -/
structure WebsiteResponse where
  success : Bool
  websites : List BasicWebsite
deriving DecidableEq, Repr

/-- What a handler leaves in the `http.ResponseWriter`: a message written by
`SendJsonMessage` with its status code, one of the three JSON bodies written with
status 200, or nothing because the handler stopped on an index out of range. -/
inductive Response where
  | message (status : Nat) (success : Bool) (text : String)
  | detailed (body : DetailedWebsiteResponse)
  | results (body : ResultsResponse)
  | websites (body : WebsiteResponse)
  | indexOutOfRange
deriving DecidableEq, Repr

/-- Modelled from the spec: the helper `SendJsonMessage` is declared outside
`routes/api.go`; it writes the envelope with the given status code, success flag
and message. -/
def SendJsonMessage (status : Nat) (success : Bool) (text : String) : Response :=
  .message status success text

/-- The statements of `routes/api.go` with their arguments, by the line that
sends them. -/
inductive Statement where
  | status (url : String)
  | lastFail (url : String)
  | counts (url1 url2 : String)
  | results (url : String) (limit offset : Int)
  | websites
  | websiteStatus (totalRows : Int)
deriving DecidableEq, Repr

/-- A run of a handler: the statements sent to the store, in order, and the
response written. -/
structure Outcome where
  queries : List Statement
  response : Response
deriving DecidableEq, Repr

/-! ## Handlers -/

/-- The `WebsiteAvailability` literal of line 78:
`{ups, totalChecks - ups, totalChecks,
strconv.FormatFloat((float64(ups)/float64(totalChecks))*100, 'f', 2, 64) + "%"}`. -/
def availability (ups totalChecks : Int) : WebsiteAvailability :=
  { ups := ups
    downs := totalChecks - ups
    total := totalChecks
    average :=
      FormatFloat (((float64 ups).div (float64 totalChecks)).mul (float64 100)) 2 ++ "%" }

/-- The handler `ApiStatus` for the path parameter `url`. -/
def ApiStatus (db : Database) (url : String) : Outcome :=
  match QueryRow (db.failing 0) (statusRows db url) with
  | .error .ErrNoRows =>
    ⟨[.status url],
      SendJsonMessage 404 false "Unable to find any data matching the given url."⟩
  | .error .other =>
    ⟨[.status url], SendJsonMessage 500 false "Unable to process your Request."⟩
  | .ok (c, w) =>
    let lastFail : Option (String × String × String × String) :=
      match QueryRow (db.failing 1) (lastFailRows db url) with
      | .error .ErrNoRows => some ("0", "unknown", "0", "0000-00-00 00:00:00")
      | .error .other => none
      | .ok (f, _) => some (f.statusCode, f.statusText, f.responseTime, f.time)
    match lastFail with
    | none =>
      ⟨[.status url, .lastFail url],
        SendJsonMessage 500 false "Unable to process your Request."⟩
    | some (lastFailStatusCode, lastFailStatusText, lastFailResponseTime, lastFailTime) =>
      match QueryRow (db.failing 2) (countRows db url) with
      | .error _ =>
        ⟨[.status url, .lastFail url, .counts url url],
          SendJsonMessage 500 false "Unable to process your Request."⟩
      | .ok (ups, totalChecks) =>
        ⟨[.status url, .lastFail url, .counts url url],
          .detailed
            { success := true
              websiteData := ⟨w.id, w.name, w.protocol ++ "://" ++ w.url⟩
              availability := availability ups totalChecks
              lastCheckResult :=
                ⟨c.statusCode ++ " - " ++ c.statusText, c.responseTime ++ " ms", c.time⟩
              lastFailedCheckResult :=
                ⟨lastFailStatusCode ++ " - " ++ lastFailStatusText,
                  lastFailResponseTime ++ " ms", lastFailTime⟩ }⟩

/-- Lines 93-106 of `ApiResults`: the limit read from the query parameter
`limit` (the empty string when absent), or the message the handler answers
with. -/
def limitParam (limitString : String) : Except Response Int :=
  if limitString.length ≠ 0 then
    match Atoi limitString with
    | none => .error (SendJsonMessage 400 false "Unable to parse given limit-parameter.")
    | some parsedLimit =>
      if parsedLimit > 9999 then
        .error (SendJsonMessage 400 false
          "Unable to process your Request: Limit has to be less than 10000.")
      else .ok parsedLimit
  else .ok 100

/-- Lines 109-122 of `ApiResults`: the offset read from the query parameter
`offset` (the empty string when absent), or the message the handler answers
with. -/
def offsetParam (offsetString : String) : Except Response Int :=
  if offsetString.length ≠ 0 then
    match Atoi offsetString with
    | none => .error (SendJsonMessage 400 false "Unable to parse given offset-parameter.")
    | some parsedOffset =>
      if parsedOffset > 9999 then
        .error (SendJsonMessage 400 false
          "Unable to process your Request: Offset has to be less than 10000.")
      else .ok parsedOffset
  else .ok 0

/-- The `WebsiteCheckResult` literal of line 150:
`{statusCode + " - " + statusText, responseTime, time}`. -/
def resultOfRow (r : Check × Website) : WebsiteCheckResult :=
  ⟨r.1.statusCode ++ " - " ++ r.1.statusText, r.1.responseTime, r.1.time⟩

/-- Lines 124-169 of `ApiResults`: the statement is sent with the url, the limit
and the offset, and its rows are written as a `ResultsResponse`. -/
def sendResults (db : Database) (url : String) (limit offset : Int) : Outcome :=
  let rows : Except SqlError (List (Check × Website)) :=
    match resultRows db url limit offset with
    | none => .error .other
    | some rs => Query (db.failing 0) rs
  match rows with
  | .error _ =>
    ⟨[.results url limit offset], SendJsonMessage 500 false "Unable to process your Request."⟩
  | .ok rs => ⟨[.results url limit offset], .results ⟨true, rs.map resultOfRow⟩⟩

/-- The handler `ApiResults` for the query parameters `limit` and `offset` (the
empty string when absent) and the path parameter `url`. -/
def ApiResults (db : Database) (limitString offsetString url : String) : Outcome :=
  match limitParam limitString with
  | .error r => ⟨[], r⟩
  | .ok limit =>
    match offsetParam offsetString with
    | .error r => ⟨[], r⟩
    | .ok offset => sendResults db url limit offset

/-- The assignment `websites[i].Status = status` with Go's bounds check: `none` is
the run-time panic. -/
def setStatus (websites : List BasicWebsite) (i : Nat) (status : String) :
    Option (List BasicWebsite) :=
  match websites[i]? with
  | none => none
  | some w => some (websites.set i { w with Status := status })

/-- The second loop of `ApiWebsites` (lines 215-226) over the rows of the status
statement, starting at index `i`. -/
def statusLoop : List (Check × Website) → Nat → List BasicWebsite → Option (List BasicWebsite)
  | [], _, websites => some websites
  | r :: rest, i, websites =>
    match setStatus websites i (r.1.statusCode ++ " - " ++ r.1.statusText) with
    | none => none
    | some websites1 => statusLoop rest (i + 1) websites1

/-- The handler `ApiWebsites`. Neither loop is followed by a call of
`rows.Err()`: after an iteration that ends early the handler goes on with the
rows read so far, and `totalRows` counts the websites appended. -/
def ApiWebsites (db : Database) : Outcome :=
  match readRows (db.faults 0) (websiteRows db) with
  | .error _ => ⟨[.websites], SendJsonMessage 500 false "Unable to process your Request."⟩
  | .ok rows =>
    let websites : List BasicWebsite := rows.map fun w => ⟨w.name, w.protocol, w.url, ""⟩
    let totalRows : Nat := rows.length
    match readRows (db.faults 1) (websiteStatusRows db totalRows) with
    | .error _ =>
      ⟨[.websites, .websiteStatus totalRows],
        SendJsonMessage 500 false "Unable to process your Request."⟩
    | .ok statusRows =>
      match statusLoop statusRows 0 websites with
      | none => ⟨[.websites, .websiteStatus totalRows], .indexOutOfRange⟩
      | some websites1 =>
        ⟨[.websites, .websiteStatus totalRows], .websites ⟨true, websites1⟩⟩

/-! ## The orders of `ORDER BY` are total preorders -/

instance : IsTotal (Check × Website) idDesc :=
  ⟨fun a b => by unfold idDesc; exact le_total _ _⟩

instance : IsTrans (Check × Website) idDesc :=
  ⟨fun a b c h1 h2 => by unfold idDesc at *; exact le_trans h2 h1⟩

instance : IsTotal (Check × Website) timeDesc :=
  ⟨fun a b => by unfold timeDesc; exact le_total _ _⟩

instance : IsTrans (Check × Website) timeDesc :=
  ⟨fun a b c h1 h2 => by unfold timeDesc at *; exact le_trans h2 h1⟩

instance : IsTotal Website nameAsc :=
  ⟨fun a b => by unfold nameAsc; exact le_total _ _⟩

instance : IsTrans Website nameAsc :=
  ⟨fun a b c h1 h2 => by unfold nameAsc at *; exact le_trans h1 h2⟩

/-! ## Definitions used to state the properties -/

/-- The value `ApiResults` takes for a query parameter: the default when the
parameter is absent, the parsed number when it parses to at most 9999. -/
def paramValue (value : String) (default v : Int) : Prop :=
  (value = "" ∧ v = default) ∨ (value ≠ "" ∧ Atoi value = some v ∧ v ≤ 9999)

/-- A query parameter `ApiResults` rejects: present, and either no integer or
an integer above 9999. -/
def paramRejected (value : String) : Prop :=
  value ≠ "" ∧ (Atoi value = none ∨ ∃ v, Atoi value = some v ∧ 9999 < v)

/-- The checks that belong to an enabled website with the url, in table
order. -/
def checksOfEnabled (db : Database) (url : String) : List Check :=
  db.checks.filter fun c =>
    db.websites.any fun w => c.websiteId == w.id && (w.url == url && w.enabled == 1)

/-- The columns of an entry that the second loop of `ApiWebsites` leaves alone. -/
def baseColumns (b : BasicWebsite) : String × String × String :=
  (b.name, b.protocol, b.url)

/-! ## Sample stores -/

/-- A store with two enabled websites and a disabled one that shares the url
of the first. -/
def sampleStore : Database :=
  { websites :=
      [⟨1, "A", "https", "a.example", 1, 1⟩, ⟨2, "B", "http", "b.example", 1, 1⟩,
        ⟨3, "C", "http", "a.example", 0, 1⟩, ⟨4, "D", "http", "d.example", 1, 0⟩]
    checks :=
      [⟨1, 1, "200", "OK", "12", "2016-01-01 00:00:00"⟩,
        ⟨2, 2, "500", "Internal Server Error", "30", "2016-01-01 00:00:10"⟩,
        ⟨3, 2, "301", "Moved Permanently", "31", "2016-01-01 00:01:10"⟩,
        ⟨4, 3, "404", "Not Found", "31", "2016-01-01 00:01:10"⟩]
    faults := fun _ => .none }

/-- The success body `ApiStatus` writes for "b.example" on the sample store. -/
def sampleBody : DetailedWebsiteResponse :=
  { success := true
    websiteData := ⟨2, "B", "http://b.example"⟩
    availability := ⟨1, 1, 2, "50.00%"⟩
    lastCheckResult := ⟨"301 - Moved Permanently", "31 ms", "2016-01-01 00:01:10"⟩
    lastFailedCheckResult := ⟨"500 - Internal Server Error", "30 ms", "2016-01-01 00:00:10"⟩ }

/-- A store in which every listed website has a check and the two newest
checks belong to the same website. -/
def skewedStore : Database :=
  { websites :=
      [⟨1, "A", "https", "a.example", 1, 1⟩, ⟨2, "B", "http", "b.example", 1, 1⟩]
    checks :=
      [⟨1, 1, "200", "OK", "12", "2016-01-01 00:00:00"⟩,
        ⟨2, 2, "500", "Internal Server Error", "30", "2016-01-01 00:00:10"⟩,
        ⟨3, 2, "500", "Internal Server Error", "31", "2016-01-01 00:01:10"⟩]
    faults := fun _ => .none }

/-- The sample store when the iteration over the rows of the first statement
ends early, after one row. -/
def interruptedStore : Database :=
  { sampleStore with faults := fun n => if n = 0 then .interrupted 1 else .none }

/-- A store in which the first listed website has no check yet. -/
def uncheckedStore : Database :=
  { websites :=
      [⟨1, "A", "https", "a.example", 1, 1⟩, ⟨2, "B", "http", "b.example", 1, 1⟩]
    checks := [⟨1, 2, "200", "OK", "12", "2016-01-01 00:00:00"⟩]
    faults := fun _ => .none }

set_option maxRecDepth 100000

/-! ## The operator `LIKE` -/

theorem anySuffix_isEmpty (s : List Char) :
    anySuffix (fun x : List Char => x.isEmpty) s = true := by
  induction s with
  | nil => rfl
  | cons c cs ih => simp [anySuffix, ih]

theorem likeMatch_digit_percent (d : Char) (hp : d ≠ '%') (hu : d ≠ '_') (s : List Char) :
    likeMatch [d, '%'] s = decide (s.head? = some d) := by
  cases s with
  | nil => simp [likeMatch, hp]
  | cons c cs =>
    have h := anySuffix_isEmpty cs
    by_cases hcd : d = c
    · subst hcd
      simp [likeMatch, hp, hu, h]
    · have : ¬ c = d := fun h => hcd h.symm
      simp [likeMatch, hp, hu, hcd, this, h]

theorem successFilter_eq (s : String) :
    successFilter s = (decide (s.data.head? = some '2') || decide (s.data.head? = some '3')) := by
  unfold successFilter LIKE
  have h2 := likeMatch_digit_percent '2' (by decide) (by decide) s.data
  have h3 := likeMatch_digit_percent '3' (by decide) (by decide) s.data
  have e2 : "2%".data = ['2', '%'] := rfl
  have e3 : "3%".data = ['3', '%'] := rfl
  rw [e2, e3, h2, h3]

theorem failureFilter_eq_not (s : String) : failureFilter s = !successFilter s := by
  unfold failureFilter successFilter
  cases LIKE s "2%" <;> cases LIKE s "3%" <;> rfl

/-- C3: for every status code the success filter of the availability count
holds exactly when the first character is '2' or '3', the failure filter of the
last-failure lookup exactly when it is not, the failure filter is the negation
of the success filter, and exactly one of the two holds, also of the empty and
of the non-numeric codes. -/
theorem filters_classify_by_first_char (s : String) :
    (successFilter s = true ↔ (s.data.head? = some '2' ∨ s.data.head? = some '3')) ∧
    (failureFilter s = true ↔ ¬ (s.data.head? = some '2' ∨ s.data.head? = some '3')) ∧
    failureFilter s = (!successFilter s) ∧
    ((successFilter s = true ∧ failureFilter s = false) ∨
      (successFilter s = false ∧ failureFilter s = true)) := by
  have hs : successFilter s = true ↔ (s.data.head? = some '2' ∨ s.data.head? = some '3') := by
    rw [successFilter_eq]; simp
  have hf := failureFilter_eq_not s
  refine ⟨hs, ?_, hf, ?_⟩
  · rw [hf, ← hs]; simp
  · rw [hf]; cases successFilter s <;> simp

/-! ## The statements of `ApiStatus` -/

theorem mem_joined (db : Database) (c : Check) (w : Website) :
    (c, w) ∈ joined db ↔ c ∈ db.checks ∧ w ∈ db.websites ∧ c.websiteId = w.id := by
  unfold joined
  simp only [List.mem_flatMap, List.mem_map, List.mem_filter, beq_iff_eq, Prod.mk.injEq]
  constructor
  · rintro ⟨c1, hc1, w1, ⟨hw1, hid⟩, rfl, rfl⟩
    exact ⟨hc1, hw1, hid⟩
  · rintro ⟨hc, hw, hid⟩
    exact ⟨c, hc, w, ⟨hw, hid⟩, rfl, rfl⟩

/-- The first row of a sorted result is a row of the input that precedes every
other one; an empty input has none. -/
theorem take_one_insertionSort {α : Type} (r : α → α → Prop) [DecidableRel r] [IsTotal α r]
    [IsTrans α r] (l : List α) :
    (l = [] ∧ (l.insertionSort r).take 1 = []) ∨
      ∃ x, (l.insertionSort r).take 1 = [x] ∧ x ∈ l ∧ ∀ y ∈ l, r x y := by
  have hperm := List.perm_insertionSort r l
  have hsorted := List.sorted_insertionSort r l
  cases h : l.insertionSort r with
  | nil =>
    left
    rw [h] at hperm
    exact ⟨hperm.symm.eq_nil, rfl⟩
  | cons x t =>
    right
    rw [h] at hperm hsorted
    refine ⟨x, rfl, hperm.subset (List.mem_cons_self x t), ?_⟩
    intro y hy
    have hy1 : y ∈ x :: t := hperm.symm.subset hy
    rcases List.mem_cons.mp hy1 with rfl | hyt
    · exact (IsTotal.total y y).elim id id
    · exact List.rel_of_sorted_cons hsorted y hyt

/-- The rows the three statements of `ApiStatus` select from. -/
theorem mem_status_filter (db : Database) (url : String) (r : Check × Website) :
    r ∈ ((joined db).filter fun r => r.2.url == url && r.2.enabled == 1) ↔
      r.1 ∈ db.checks ∧ r.2 ∈ db.websites ∧ r.1.websiteId = r.2.id ∧ r.2.url = url ∧
        r.2.enabled = 1 := by
  obtain ⟨c, w⟩ := r
  simp only [List.mem_filter, mem_joined, Bool.and_eq_true, beq_iff_eq]
  tauto

theorem mem_lastFail_filter (db : Database) (url : String) (r : Check × Website) :
    r ∈ ((joined db).filter fun r =>
        failureFilter r.1.statusCode && r.2.url == url && r.2.enabled == 1) ↔
      r.1 ∈ db.checks ∧ r.2 ∈ db.websites ∧ r.1.websiteId = r.2.id ∧ r.2.url = url ∧
        r.2.enabled = 1 ∧ failureFilter r.1.statusCode = true := by
  obtain ⟨c, w⟩ := r
  simp only [List.mem_filter, mem_joined, Bool.and_eq_true, beq_iff_eq]
  tauto

/-- The statement of line 39 has no row exactly when no check belongs to an
enabled website with the url; otherwise its row is such a check of highest id. -/
theorem statusRows_cases (db : Database) (url : String) :
    (statusRows db url = [] ∧
      ¬ ∃ c ∈ db.checks, ∃ w ∈ db.websites, c.websiteId = w.id ∧ w.url = url ∧ w.enabled = 1) ∨
    ∃ c w, statusRows db url = [(c, w)] ∧ c ∈ db.checks ∧ w ∈ db.websites ∧
      c.websiteId = w.id ∧ w.url = url ∧ w.enabled = 1 := by
  unfold statusRows
  rcases take_one_insertionSort idDesc
      ((joined db).filter fun r => r.2.url == url && r.2.enabled == 1) with ⟨hnil, h⟩ | ⟨x, h, hx, _⟩
  · left
    refine ⟨h, ?_⟩
    rintro ⟨c, hc, w, hw, hid, hurl, hen⟩
    have hmem : (c, w) ∈ ((joined db).filter fun r => r.2.url == url && r.2.enabled == 1) :=
      (mem_status_filter db url (c, w)).mpr ⟨hc, hw, hid, hurl, hen⟩
    rw [hnil] at hmem
    exact List.not_mem_nil _ hmem
  · right
    obtain ⟨c, w⟩ := x
    have := (mem_status_filter db url (c, w)).mp hx
    exact ⟨c, w, h, this⟩

/-- The statement of line 51 has no row exactly when no failed check belongs to
an enabled website with the url; otherwise its row is such a check of highest
id. -/
theorem lastFailRows_cases (db : Database) (url : String) :
    (lastFailRows db url = [] ∧
      ¬ ∃ c ∈ db.checks, ∃ w ∈ db.websites, c.websiteId = w.id ∧ w.url = url ∧ w.enabled = 1 ∧
        failureFilter c.statusCode = true) ∨
    ∃ c w, lastFailRows db url = [(c, w)] ∧ c ∈ db.checks ∧ w ∈ db.websites ∧
      c.websiteId = w.id ∧ w.url = url ∧ w.enabled = 1 ∧ failureFilter c.statusCode = true ∧
      ∀ c1 ∈ db.checks, ∀ w1 ∈ db.websites, c1.websiteId = w1.id → w1.url = url →
        w1.enabled = 1 → failureFilter c1.statusCode = true → c1.id ≤ c.id := by
  unfold lastFailRows
  rcases take_one_insertionSort idDesc
      ((joined db).filter fun r =>
        failureFilter r.1.statusCode && r.2.url == url && r.2.enabled == 1)
    with ⟨hnil, h⟩ | ⟨x, h, hx, hmax⟩
  · left
    refine ⟨h, ?_⟩
    rintro ⟨c, hc, w, hw, hid, hurl, hen, hf⟩
    have hmem := (mem_lastFail_filter db url (c, w)).mpr ⟨hc, hw, hid, hurl, hen, hf⟩
    rw [hnil] at hmem
    exact List.not_mem_nil _ hmem
  · right
    obtain ⟨c, w⟩ := x
    obtain ⟨h1, h2, h3, h4, h5, h6⟩ := (mem_lastFail_filter db url (c, w)).mp hx
    refine ⟨c, w, h, h1, h2, h3, h4, h5, h6, ?_⟩
    intro c1 hc1 w1 hw1 hid hurl hen hf
    exact hmax (c1, w1) ((mem_lastFail_filter db url (c1, w1)).mpr ⟨hc1, hw1, hid, hurl, hen, hf⟩)

/-- The statement of line 65 yields one row of both counts as soon as the table
`checks` has a row. -/
theorem countRows_of_mem (db : Database) (url : String) (c : Check) (hc : c ∈ db.checks) :
    countRows db url = [((countUps db url : Int), (countTotal db url : Int))] := by
  unfold countRows
  cases h : db.checks with
  | nil => rw [h] at hc; exact absurd hc (List.not_mem_nil _)
  | cons a t => simp

/-- The success part of the success counts. -/
theorem countUps_le_countTotal (db : Database) (url : String) :
    countUps db url ≤ countTotal db url := by
  unfold countUps countTotal
  have : ((joined db).filter fun r => successFilter r.1.statusCode && r.2.url == url) =
      (((joined db).filter fun r => r.2.url == url).filter fun r =>
        successFilter r.1.statusCode) := by
    rw [List.filter_filter]
  rw [this]
  exact List.length_filter_le _ _

/-- The response of `ApiStatus` on a store without faults, by the rows of its
first two statements. -/
theorem ApiStatus_eq (db : Database) (url : String) (hok : ∀ n, db.failing n = false) :
    (statusRows db url = [] ∧
      ApiStatus db url = ⟨[.status url],
        .message 404 false "Unable to find any data matching the given url."⟩) ∨
    ∃ c w, statusRows db url = [(c, w)] ∧
      ApiStatus db url = ⟨[.status url, .lastFail url, .counts url url],
        .detailed
          { success := true
            websiteData := ⟨w.id, w.name, w.protocol ++ "://" ++ w.url⟩
            availability := availability (countUps db url) (countTotal db url)
            lastCheckResult :=
              ⟨c.statusCode ++ " - " ++ c.statusText, c.responseTime ++ " ms", c.time⟩
            lastFailedCheckResult :=
              match lastFailRows db url with
              | [] => ⟨"0 - unknown", "0 ms", "0000-00-00 00:00:00"⟩
              | (f, _) :: _ =>
                ⟨f.statusCode ++ " - " ++ f.statusText, f.responseTime ++ " ms", f.time⟩ }⟩ := by
  rcases statusRows_cases db url with ⟨h, _⟩ | ⟨c, w, h, hc, _⟩
  · left
    refine ⟨h, ?_⟩
    simp [ApiStatus, QueryRow, hok, h, SendJsonMessage]
  · right
    refine ⟨c, w, h, ?_⟩
    have hcount := countRows_of_mem db url c hc
    rcases lastFailRows_cases db url with ⟨hf, _⟩ | ⟨f, v, hf, _⟩
    · simp [ApiStatus, QueryRow, hok, h, hf, hcount]
    · simp [ApiStatus, QueryRow, hok, h, hf, hcount]

/-- A success body of `ApiStatus` comes from a row of the first statement and
carries the two counts of the third. -/
theorem ApiStatus_detailed_inv (db : Database) (url : String) (body : DetailedWebsiteResponse)
    (h : (ApiStatus db url).response = .detailed body) :
    (∃ c w, statusRows db url = [(c, w)]) ∧
      body.availability = availability (countUps db url) (countTotal db url) := by
  rcases statusRows_cases db url with ⟨h0, _⟩ | ⟨c, w, hrows, hc, _⟩
  · exfalso
    revert h
    cases hf : db.failing 0 <;> simp [ApiStatus, QueryRow, hf, h0, SendJsonMessage]
  · refine ⟨⟨c, w, hrows⟩, ?_⟩
    have hcount := countRows_of_mem db url c hc
    revert h
    cases hf0 : db.failing 0 <;> cases hf1 : db.failing 1 <;> cases hf2 : db.failing 2 <;>
      rcases lastFailRows_cases db url with ⟨hf, _⟩ | ⟨f, v, hf, _⟩ <;>
      simp [ApiStatus, QueryRow, hf0, hf1, hf2, hrows, hf, hcount, SendJsonMessage] <;>
      intro hb <;> rw [← hb]

/-! ## The handler `ApiStatus` -/

/-- C4: on a store in which no statement fails, `ApiStatus` answers 404 with
`success = false` exactly when no check belongs to an enabled website with the
given url; it has then sent the first statement only and written no success
body. -/
theorem ApiStatus_notFound_iff (db : Database) (url : String)
    (hok : ∀ n, db.failing n = false) :
    ((∃ text, (ApiStatus db url).response = .message 404 false text) ↔
      ¬ ∃ c ∈ db.checks, ∃ w ∈ db.websites,
          c.websiteId = w.id ∧ w.url = url ∧ w.enabled = 1) ∧
    ((∃ text, (ApiStatus db url).response = .message 404 false text) →
      (ApiStatus db url).queries = [.status url] ∧
        ∀ body, (ApiStatus db url).response ≠ .detailed body) := by
  rcases ApiStatus_eq db url hok with ⟨hrows, h⟩ | ⟨c, w, hrows, h⟩
  · have hnone : ¬ ∃ c ∈ db.checks, ∃ w ∈ db.websites,
        c.websiteId = w.id ∧ w.url = url ∧ w.enabled = 1 := by
      rcases statusRows_cases db url with ⟨_, hn⟩ | ⟨c, w, h1, _⟩
      · exact hn
      · rw [hrows] at h1; exact absurd h1 (by simp)
    rw [h]
    refine ⟨⟨fun _ => hnone, fun _ => ⟨_, rfl⟩⟩, fun _ => ⟨rfl, ?_⟩⟩
    intro body hb
    cases hb
  · have hsome : ∃ c ∈ db.checks, ∃ w ∈ db.websites,
        c.websiteId = w.id ∧ w.url = url ∧ w.enabled = 1 := by
      rcases statusRows_cases db url with ⟨h0, _⟩ | ⟨c1, w1, _, hc, hw, hrest⟩
      · rw [hrows] at h0; exact absurd h0 (by simp)
      · exact ⟨c1, hc, w1, hw, hrest⟩
    rw [h]
    refine ⟨⟨?_, fun hn => absurd hsome hn⟩, ?_⟩
    · rintro ⟨text, ht⟩
      cases ht
    · rintro ⟨text, ht⟩
      cases ht

theorem ApiStatus_notFound_iff_witness :
    ((∃ text, (ApiStatus sampleStore "d.example").response = .message 404 false text) ↔
      ¬ ∃ c ∈ sampleStore.checks, ∃ w ∈ sampleStore.websites,
          c.websiteId = w.id ∧ w.url = "d.example" ∧ w.enabled = 1) ∧
    ((∃ text, (ApiStatus sampleStore "d.example").response = .message 404 false text) →
      (ApiStatus sampleStore "d.example").queries = [.status "d.example"] ∧
        ∀ body, (ApiStatus sampleStore "d.example").response ≠ .detailed body) :=
  ApiStatus_notFound_iff sampleStore "d.example" (fun _ => rfl)

/-- C5: on a store in which no statement fails and for a url with a check of an
enabled website, `ApiStatus` writes a success body; when every such check is
classified as success the last-failure part is the sentinel "0 - unknown",
"0 ms", "0000-00-00 00:00:00", and when some such check is classified as
failure it is built from one of the failed checks of highest id. -/
theorem ApiStatus_lastFailure (db : Database) (url : String)
    (hok : ∀ n, db.failing n = false)
    (hsome : ∃ c ∈ db.checks, ∃ w ∈ db.websites,
      c.websiteId = w.id ∧ w.url = url ∧ w.enabled = 1) :
    ∃ body, (ApiStatus db url).response = .detailed body ∧ body.success = true ∧
      ((∀ c ∈ db.checks, ∀ w ∈ db.websites, c.websiteId = w.id → w.url = url →
          w.enabled = 1 → successFilter c.statusCode = true) →
        body.lastFailedCheckResult = ⟨"0 - unknown", "0 ms", "0000-00-00 00:00:00"⟩) ∧
      ((∃ c ∈ db.checks, ∃ w ∈ db.websites, c.websiteId = w.id ∧ w.url = url ∧
          w.enabled = 1 ∧ successFilter c.statusCode = false) →
        ∃ f ∈ db.checks, (∃ w ∈ db.websites, f.websiteId = w.id ∧ w.url = url ∧ w.enabled = 1) ∧
          successFilter f.statusCode = false ∧
          (∀ c ∈ db.checks, ∀ w ∈ db.websites, c.websiteId = w.id → w.url = url →
            w.enabled = 1 → successFilter c.statusCode = false → c.id ≤ f.id) ∧
          body.lastFailedCheckResult =
            ⟨f.statusCode ++ " - " ++ f.statusText, f.responseTime ++ " ms", f.time⟩) := by
  have hfs : ∀ s, failureFilter s = true ↔ successFilter s = false := by
    intro s
    rw [failureFilter_eq_not]
    cases successFilter s <;> simp
  rcases ApiStatus_eq db url hok with ⟨hrows, _⟩ | ⟨c, w, _, h⟩
  · exfalso
    rcases statusRows_cases db url with ⟨_, hn⟩ | ⟨c1, w1, h1, _⟩
    · exact hn hsome
    · rw [hrows] at h1; exact absurd h1 (by simp)
  · rw [h]
    refine ⟨_, rfl, rfl, ?_, ?_⟩
    · intro hall
      rcases lastFailRows_cases db url with ⟨hf, _⟩ | ⟨f, v, _, hfc, hv, hid, hurl, hen, hfail, _⟩
      · simp only [hf]
      · have := hall f hfc v hv hid hurl hen
        rw [(hfs _).mp hfail] at this
        exact absurd this (by simp)
    · rintro ⟨c1, hc1, w1, hw1, hid1, hurl1, hen1, hfail1⟩
      rcases lastFailRows_cases db url with ⟨_, hn⟩ | ⟨f, v, hf, hfc, hv, hid, hurl, hen, hfail, hmax⟩
      · exact absurd ⟨c1, hc1, w1, hw1, hid1, hurl1, hen1, (hfs _).mpr hfail1⟩ hn
      · refine ⟨f, hfc, ⟨v, hv, hid, hurl, hen⟩, (hfs _).mp hfail, ?_, ?_⟩
        · intro c2 hc2 w2 hw2 hid2 hurl2 hen2 hfail2
          exact hmax c2 hc2 w2 hw2 hid2 hurl2 hen2 ((hfs _).mpr hfail2)
        · simp only [hf]

theorem ApiStatus_lastFailure_witness :
    (∃ body, (ApiStatus sampleStore "a.example").response = .detailed body ∧
      body.success = true ∧
      ((∀ c ∈ sampleStore.checks, ∀ w ∈ sampleStore.websites, c.websiteId = w.id →
          w.url = "a.example" → w.enabled = 1 → successFilter c.statusCode = true) →
        body.lastFailedCheckResult = ⟨"0 - unknown", "0 ms", "0000-00-00 00:00:00"⟩) ∧
      ((∃ c ∈ sampleStore.checks, ∃ w ∈ sampleStore.websites, c.websiteId = w.id ∧
          w.url = "a.example" ∧ w.enabled = 1 ∧ successFilter c.statusCode = false) →
        ∃ f ∈ sampleStore.checks,
          (∃ w ∈ sampleStore.websites, f.websiteId = w.id ∧ w.url = "a.example" ∧
            w.enabled = 1) ∧
          successFilter f.statusCode = false ∧
          (∀ c ∈ sampleStore.checks, ∀ w ∈ sampleStore.websites, c.websiteId = w.id →
            w.url = "a.example" → w.enabled = 1 → successFilter c.statusCode = false →
            c.id ≤ f.id) ∧
          body.lastFailedCheckResult =
            ⟨f.statusCode ++ " - " ++ f.statusText, f.responseTime ++ " ms", f.time⟩)) ∧
    (∀ c ∈ sampleStore.checks, ∀ w ∈ sampleStore.websites, c.websiteId = w.id →
      w.url = "a.example" → w.enabled = 1 → successFilter c.statusCode = true) ∧
    (ApiStatus sampleStore "a.example").response = .detailed
      { success := true
        websiteData := ⟨1, "A", "https://a.example"⟩
        availability := ⟨1, 1, 2, "50.00%"⟩
        lastCheckResult := ⟨"200 - OK", "12 ms", "2016-01-01 00:00:00"⟩
        lastFailedCheckResult := ⟨"0 - unknown", "0 ms", "0000-00-00 00:00:00"⟩ } :=
  ⟨ApiStatus_lastFailure sampleStore "a.example" (fun _ => rfl) (by decide), by decide,
    by decide⟩

/-- C2 (evaluation at the failing input): on `sampleStore` the url "a.example"
belongs to the enabled website 1 with one check, a success, and to the disabled
website 3 with one check, a failure; the first two statements of `ApiStatus`
read website 1 only, but the counts of the third include the check of the
disabled website: total 2 and down 1 instead of total 1 and down 0. -/
theorem ApiStatus_counts_disabled :
    (ApiStatus sampleStore "a.example").response = .detailed
      { success := true
        websiteData := ⟨1, "A", "https://a.example"⟩
        availability := ⟨1, 1, 2, "50.00%"⟩
        lastCheckResult := ⟨"200 - OK", "12 ms", "2016-01-01 00:00:00"⟩
        lastFailedCheckResult := ⟨"0 - unknown", "0 ms", "0000-00-00 00:00:00"⟩ } ∧
    checksOfEnabled sampleStore "a.example" =
      [⟨1, 1, "200", "OK", "12", "2016-01-01 00:00:00"⟩] ∧
    ((checksOfEnabled sampleStore "a.example").filter fun c =>
      successFilter c.statusCode).length = 1 := by
  decide

/-! ## The `float64` operations -/

theorem bitLengthAux_zero (fuel : Nat) : bitLengthAux fuel 0 = 0 := by
  cases fuel <;> simp [bitLengthAux]

theorem bitLengthAux_spec (fuel : Nat) :
    ∀ n, 0 < n → n ≤ fuel →
      1 ≤ bitLengthAux fuel n ∧ 2 ^ (bitLengthAux fuel n - 1) ≤ n ∧
        n < 2 ^ bitLengthAux fuel n := by
  induction fuel with
  | zero => intro n h0 h; omega
  | succ fuel ih =>
    intro n h0 h
    have hne : n ≠ 0 := by omega
    simp only [bitLengthAux, hne, if_false]
    by_cases h1 : n / 2 = 0
    · have hn1 : n = 1 := by omega
      subst hn1
      simp [bitLengthAux_zero]
    · obtain ⟨hb, hlo, hhi⟩ := ih (n / 2) (by omega) (by omega)
      refine ⟨by omega, ?_, ?_⟩
      · have e : bitLengthAux fuel (n / 2) + 1 - 1 = (bitLengthAux fuel (n / 2) - 1) + 1 := by
          omega
        rw [e, pow_succ]
        omega
      · rw [pow_succ]
        omega

theorem bitLength_spec (n : Nat) (h : 0 < n) :
    1 ≤ bitLength n ∧ 2 ^ (bitLength n - 1) ≤ n ∧ n < 2 ^ bitLength n :=
  bitLengthAux_spec n n h (le_refl n)

/-- A power of two with an integer exponent as a quotient of two powers with
natural exponents. -/
theorem two_zpow_split (d : Int) :
    (2 : ℚ) ^ d = (2 : ℚ) ^ d.toNat / (2 : ℚ) ^ (-d).toNat := by
  rcases le_total 0 d with h | h
  · have h1 : (-d).toNat = 0 := by omega
    have h2 : d = (d.toNat : Int) := by omega
    rw [h1, pow_zero, div_one]
    conv_lhs => rw [h2]
    exact zpow_natCast 2 d.toNat
  · have h1 : d.toNat = 0 := by omega
    have h2 : d = -((-d).toNat : Int) := by omega
    rw [h1, pow_zero, one_div]
    conv_lhs => rw [h2]
    rw [zpow_neg, zpow_natCast]

/-- The distance of `roundHalfEven` from the quotient is at most one half. -/
theorem roundHalfEven_err (num den : Nat) (hd : 0 < den) :
    |((roundHalfEven num den : Nat) : ℚ) - (num : ℚ) / (den : ℚ)| ≤ 1 / 2 := by
  have hdq : (0 : ℚ) < (den : ℚ) := by exact_mod_cast hd
  have hsplit : (num : ℚ) / (den : ℚ) = ((num / den : Nat) : ℚ) + ((num % den : Nat) : ℚ) / den := by
    have h := Nat.div_add_mod num den
    have hq : (num : ℚ) = (den : ℚ) * ((num / den : Nat) : ℚ) + ((num % den : Nat) : ℚ) := by
      exact_mod_cast h.symm
    field_simp
    linarith
  have hr : num % den < den := Nat.mod_lt _ hd
  have hrq : ((num % den : Nat) : ℚ) < den := by exact_mod_cast hr
  have hr0 : (0 : ℚ) ≤ ((num % den : Nat) : ℚ) := Nat.cast_nonneg _
  have hfrac0 : (0 : ℚ) ≤ ((num % den : Nat) : ℚ) / den := div_nonneg hr0 hdq.le
  have hfrac1 : ((num % den : Nat) : ℚ) / den < 1 := (div_lt_one hdq).mpr hrq
  rw [hsplit]
  unfold roundHalfEven
  simp only
  by_cases h1 : 2 * (num % den) < den
  · have : (2 : ℚ) * ((num % den : Nat) : ℚ) < den := by exact_mod_cast h1
    have hhalf : ((num % den : Nat) : ℚ) / den ≤ 1 / 2 := by
      rw [div_le_iff₀ hdq]; linarith
    rw [if_pos h1, abs_le]
    constructor <;> linarith
  · rw [if_neg h1]
    by_cases h2 : den < 2 * (num % den)
    · have : (den : ℚ) < (2 : ℚ) * ((num % den : Nat) : ℚ) := by exact_mod_cast h2
      have hhalf : 1 / 2 ≤ ((num % den : Nat) : ℚ) / den := by
        rw [le_div_iff₀ hdq]; linarith
      rw [if_pos h2, abs_le]
      push_cast
      constructor <;> linarith
    · rw [if_neg h2]
      have heq : 2 * (num % den) = den := by omega
      have : (2 : ℚ) * ((num % den : Nat) : ℚ) = den := by exact_mod_cast heq
      have hhalf : ((num % den : Nat) : ℚ) / den = 1 / 2 := by
        rw [div_eq_iff hdq.ne']; linarith
      by_cases h3 : num / den % 2 = 0
      · rw [if_pos h3, abs_le, hhalf]
        constructor <;> linarith
      · rw [if_neg h3, abs_le, hhalf]
        push_cast
        constructor <;> linarith

/-- The exponent chosen by `ulpExp` puts the quotient at or above `2^(k+52)`. -/
theorem ulpExp_spec (num den : Nat) (hn : 0 < num) (hd : 0 < den) :
    (2 : ℚ) ^ (ulpExp num den + 52) ≤ (num : ℚ) / (den : ℚ) := by
  have hdq : (0 : ℚ) < (den : ℚ) := by exact_mod_cast hd
  obtain ⟨hbn, hnlo, _⟩ := bitLength_spec num hn
  obtain ⟨_, _, hdhi⟩ := bitLength_spec den hd
  unfold ulpExp
  simp only [sub_add_cancel]
  split
  · rename_i htest
    rw [two_zpow_split, div_le_div_iff₀ (by positivity) hdq]
    have : ((den * 2 ^ ((bitLength num : Int) - (bitLength den : Int)).toNat : Nat) : ℚ) ≤
        ((num * 2 ^ (-((bitLength num : Int) - (bitLength den : Int))).toNat : Nat) : ℚ) := by
      exact_mod_cast htest
    push_cast at this
    linarith
  · rw [le_div_iff₀ hdq]
    have e : (bitLength num : Int) - (bitLength den : Int) - 1 =
        ((bitLength num - 1 : Nat) : Int) - ((bitLength den : Nat) : Int) := by omega
    rw [e, zpow_sub₀ (by norm_num), zpow_natCast, zpow_natCast]
    have h1 : ((2 : ℚ) ^ (bitLength num - 1)) ≤ (num : ℚ) := by exact_mod_cast hnlo
    have h2 : (den : ℚ) ≤ (2 : ℚ) ^ bitLength den := by exact_mod_cast hdhi.le
    have hpos : (0 : ℚ) < (2 : ℚ) ^ bitLength den := by positivity
    have hpos1 : (0 : ℚ) ≤ (2 : ℚ) ^ (bitLength num - 1) := by positivity
    calc (2 : ℚ) ^ (bitLength num - 1) / (2 : ℚ) ^ bitLength den * (den : ℚ)
        = (2 : ℚ) ^ (bitLength num - 1) * ((den : ℚ) / (2 : ℚ) ^ bitLength den) := by ring
      _ ≤ (2 : ℚ) ^ (bitLength num - 1) * 1 := by
          apply mul_le_mul_of_nonneg_left _ hpos1
          exact (div_le_one hpos).mpr h2
      _ ≤ (num : ℚ) := by linarith

/-- The result of `roundFloat` on a positive quotient: a finite number within
the relative distance `2^-53` of the quotient. -/
theorem roundFloat_spec (neg : Bool) (num den : Nat) (hn : 0 < num) (hd : 0 < den) :
    ∃ m k, roundFloat neg num den = .fin neg m k ∧
      |(m : ℚ) * (2 : ℚ) ^ k - (num : ℚ) / (den : ℚ)| ≤ (num : ℚ) / (den : ℚ) / 2 ^ 53 := by
  have hne : num ≠ 0 := by omega
  refine ⟨roundHalfEven (num * 2 ^ (-(ulpExp num den)).toNat) (den * 2 ^ (ulpExp num den).toNat),
    ulpExp num den, by simp [roundFloat, hne], ?_⟩
  generalize hk : ulpExp num den = k
  have hspec := ulpExp_spec num den hn hd
  rw [hk] at hspec
  have hD : 0 < den * 2 ^ k.toNat := Nat.mul_pos hd (by positivity)
  have herr := roundHalfEven_err (num * 2 ^ (-k).toNat) (den * 2 ^ k.toNat) hD
  have hpk : (0 : ℚ) < (2 : ℚ) ^ k := by positivity
  have hdq : (0 : ℚ) < (den : ℚ) := by exact_mod_cast hd
  have hscaled : ((num * 2 ^ (-k).toNat : Nat) : ℚ) / ((den * 2 ^ k.toNat : Nat) : ℚ) =
      (num : ℚ) / (den : ℚ) / (2 : ℚ) ^ k := by
    rw [two_zpow_split k]
    push_cast
    field_simp
  rw [hscaled] at herr
  set m : ℚ := ((roundHalfEven (num * 2 ^ (-k).toNat) (den * 2 ^ k.toNat) : Nat) : ℚ) with hm
  set x : ℚ := (num : ℚ) / (den : ℚ) with hx
  have h1 : |m * (2 : ℚ) ^ k - x| = |m - x / (2 : ℚ) ^ k| * (2 : ℚ) ^ k := by
    rw [← abs_of_pos hpk, ← abs_mul, abs_of_pos hpk]
    congr 1
    field_simp
  have h2 : (2 : ℚ) ^ k = (2 : ℚ) ^ (k + 52) / 2 ^ 52 := by
    rw [zpow_add₀ (by norm_num)]
    norm_num
  rw [h1]
  calc |m - x / (2 : ℚ) ^ k| * (2 : ℚ) ^ k ≤ 1 / 2 * (2 : ℚ) ^ k :=
        mul_le_mul_of_nonneg_right herr hpk.le
    _ = (2 : ℚ) ^ (k + 52) / 2 ^ 53 := by rw [h2]; ring
    _ ≤ x / 2 ^ 53 := by
        apply div_le_div_of_nonneg_right hspec (by positivity)

/-- A positive quotient is never rounded to zero. -/
theorem roundFloat_pos (neg : Bool) (num den : Nat) (hn : 0 < num) (hd : 0 < den) :
    ∃ m k, roundFloat neg num den = .fin neg m k ∧ 0 < m ∧
      |(m : ℚ) * (2 : ℚ) ^ k - (num : ℚ) / (den : ℚ)| ≤ (num : ℚ) / (den : ℚ) / 2 ^ 53 := by
  obtain ⟨m, k, h, herr⟩ := roundFloat_spec neg num den hn hd
  refine ⟨m, k, h, ?_, herr⟩
  by_contra hm
  have hm0 : m = 0 := by omega
  subst hm0
  have hx : (0 : ℚ) < (num : ℚ) / (den : ℚ) := by
    apply div_pos <;> exact_mod_cast (by assumption)
  rw [Nat.cast_zero, zero_mul, zero_sub, abs_neg, abs_of_pos hx] at herr
  have : (num : ℚ) / (den : ℚ) / 2 ^ 53 < (num : ℚ) / (den : ℚ) := by
    apply div_lt_self hx
    norm_num
  linarith

/-- The conversion `float64(n)` is exact for `0 < n < 2^53`. -/
theorem float64_exact (n : Nat) (hn : 0 < n) (h : n < 2 ^ 53) :
    ∃ m k, float64 (n : Int) = .fin false m k ∧ 0 < m ∧ (m : ℚ) * (2 : ℚ) ^ k = (n : ℚ) := by
  have hf : float64 (n : Int) = roundFloat false n 1 := by
    have hneg : decide ((n : Int) < 0) = false := by
      rw [decide_eq_false_iff_not]
      omega
    simp [float64, hneg]
  have hne : n ≠ 0 := by omega
  have hspec := ulpExp_spec n 1 hn (by norm_num)
  generalize hk : ulpExp n 1 = k at hspec
  have hk0 : k ≤ 0 := by
    have hlt : (2 : ℚ) ^ (k + 52) < (2 : ℚ) ^ (53 : Int) := by
      have : ((n : Nat) : ℚ) < (2 : ℚ) ^ (53 : Nat) := by exact_mod_cast h
      rw [Nat.cast_one, div_one] at hspec
      calc (2 : ℚ) ^ (k + 52) ≤ (n : ℚ) := hspec
        _ < (2 : ℚ) ^ (53 : Nat) := this
        _ = (2 : ℚ) ^ (53 : Int) := by norm_cast
    have := (zpow_lt_zpow_iff_right₀ (by norm_num : (1 : ℚ) < 2)).mp hlt
    omega
  have hkn : k.toNat = 0 := by omega
  have hval : roundFloat false n 1 = .fin false (n * 2 ^ (-k).toNat) k := by
    simp [roundFloat, hne, hk, hkn, roundHalfEven, Nat.mod_one]
  refine ⟨n * 2 ^ (-k).toNat, k, by rw [hf, hval], Nat.mul_pos hn (by positivity), ?_⟩
  rw [two_zpow_split k, hkn]
  push_cast
  field_simp

/-- The conversion `float64(n)` of a positive `int` is a finite number other
than zero. -/
theorem float64_pos (n : Int) (h : 1 ≤ n) :
    ∃ m k, float64 n = .fin false m k ∧ 0 < m := by
  have hneg : decide (n < 0) = false := by
    rw [decide_eq_false_iff_not]
    omega
  obtain ⟨m, k, hm, hpos, _⟩ := roundFloat_pos false n.natAbs 1 (by omega) (by norm_num)
  exact ⟨m, k, by simp only [float64, hneg]; exact hm, hpos⟩

theorem float64_hundred : float64 100 = .fin false 7036874417766400 (-46) := by decide

theorem float64_zero : float64 0 = .fin false 0 0 := by decide

/-- The percentage text of line 78 for no success at all. -/
theorem average_zero (total : Nat) (h2 : 0 < total) (h3 : total < 2 ^ 53) :
    (availability 0 (total : Int)).average = fixedText 2 0 ++ "%" := by
  obtain ⟨mb, kb, hb, hmb, _⟩ := float64_exact total h2 h3
  have hmb0 : mb ≠ 0 := by omega
  simp [availability, float64_zero, hb, float64_hundred, Float64.div, Float64.mul, hmb0,
    roundFloat, FormatFloat, roundHalfEven]

/-- The percentage text of line 78 is the text of a number of hundredths that
is within half a hundredth of the exact percentage, for totals below `2^37`. -/
theorem average_near (ups total : Nat) (h0 : 0 < ups) (h1 : ups ≤ total)
    (h3 : total < 2 ^ 37) :
    ∃ h : Nat, (availability (ups : Int) (total : Int)).average = fixedText 2 h ++ "%" ∧
      |(h : ℚ) * (total : ℚ) - 10000 * (ups : ℚ)| < ((total : ℚ) + 1) / 2 := by
  have h2 : 0 < total := by omega
  have hbig : (2 : Nat) ^ 37 < 2 ^ 53 := by norm_num
  obtain ⟨ma, ka, ha, hma, hva⟩ := float64_exact ups h0 (by omega)
  obtain ⟨mb, kb, hb, hmb, hvb⟩ := float64_exact total h2 (by omega)
  have hmb0 : mb ≠ 0 := by omega
  have hU : (0 : ℚ) < (ups : ℚ) := by exact_mod_cast h0
  have hT : (0 : ℚ) < (total : ℚ) := by exact_mod_cast h2
  have hUT : (ups : ℚ) ≤ (total : ℚ) := by exact_mod_cast h1
  have hT37 : (total : ℚ) < 2 ^ 37 := by exact_mod_cast h3
  -- the quotient
  have hN1 : 0 < ma * 2 ^ (ka - kb).toNat := Nat.mul_pos hma (by positivity)
  have hD1 : 0 < mb * 2 ^ (kb - ka).toNat := Nat.mul_pos hmb (by positivity)
  obtain ⟨m1, k1, hq, hm1, herr1⟩ := roundFloat_pos false _ _ hN1 hD1
  have hx1 : ((ma * 2 ^ (ka - kb).toNat : Nat) : ℚ) / ((mb * 2 ^ (kb - ka).toNat : Nat) : ℚ) =
      (ups : ℚ) / (total : ℚ) := by
    rw [← hva, ← hvb]
    have e : kb - ka = -(ka - kb) := by ring
    have hs := two_zpow_split (ka - kb)
    rw [← e] at hs
    have hsub : (2 : ℚ) ^ ka / (2 : ℚ) ^ kb = (2 : ℚ) ^ (ka - kb) := by
      rw [zpow_sub₀ (by norm_num)]
    have hmbq : (0 : ℚ) < (mb : ℚ) := by exact_mod_cast hmb
    push_cast
    rw [mul_div_mul_comm, mul_div_mul_comm, hsub, hs]
  rw [hx1] at herr1
  -- the product with 100
  have hN2 : 0 < m1 * 7036874417766400 * 2 ^ (k1 + -46).toNat :=
    Nat.mul_pos (Nat.mul_pos hm1 (by norm_num)) (by positivity)
  have hD2 : 0 < 2 ^ (-(k1 + -46)).toNat := by positivity
  obtain ⟨m2, k2, hp, _, herr2⟩ := roundFloat_pos false _ _ hN2 hD2
  have hx2 : ((m1 * 7036874417766400 * 2 ^ (k1 + -46).toNat : Nat) : ℚ) /
      ((2 ^ (-(k1 + -46)).toNat : Nat) : ℚ) = (m1 : ℚ) * (2 : ℚ) ^ k1 * 100 := by
    have hs := two_zpow_split (k1 + -46)
    have hadd : (2 : ℚ) ^ (k1 + -46) = (2 : ℚ) ^ k1 * (2 : ℚ) ^ (-46 : Int) := by
      rw [zpow_add₀ (by norm_num)]
    have h46 : (7036874417766400 : ℚ) * (2 : ℚ) ^ (-46 : Int) = 100 := by
      rw [zpow_neg]
      norm_num
    push_cast
    rw [mul_div_assoc, ← hs, hadd]
    calc (m1 : ℚ) * 7036874417766400 * ((2 : ℚ) ^ k1 * (2 : ℚ) ^ (-46 : Int))
        = (m1 : ℚ) * (2 : ℚ) ^ k1 * (7036874417766400 * (2 : ℚ) ^ (-46 : Int)) := by ring
      _ = (m1 : ℚ) * (2 : ℚ) ^ k1 * 100 := by rw [h46]
  rw [hx2] at herr2
  -- the hundredths
  have hD3 : 0 < 2 ^ (-k2).toNat := by positivity
  have herr3 := roundHalfEven_err (m2 * 10 ^ 2 * 2 ^ k2.toNat) (2 ^ (-k2).toNat) hD3
  have hx3 : ((m2 * 10 ^ 2 * 2 ^ k2.toNat : Nat) : ℚ) / ((2 ^ (-k2).toNat : Nat) : ℚ) =
      (m2 : ℚ) * (2 : ℚ) ^ k2 * 100 := by
    have hs := two_zpow_split k2
    push_cast
    rw [mul_div_assoc, ← hs]
    ring
  rw [hx3] at herr3
  refine ⟨roundHalfEven (m2 * 10 ^ 2 * 2 ^ k2.toNat) (2 ^ (-k2).toNat), ?_, ?_⟩
  · have hdiv : (float64 (ups : Int)).div (float64 (total : Int)) = .fin false m1 k1 := by
      rw [ha, hb]
      simp only [Float64.div, hmb0, if_false]
      exact hq
    have hmul : (Float64.fin false m1 k1).mul (float64 100) = .fin false m2 k2 := by
      rw [float64_hundred]
      exact hp
    simp only [availability, hdiv, hmul, FormatFloat]
    simp
  · generalize ((roundHalfEven (m2 * 10 ^ 2 * 2 ^ k2.toNat) (2 ^ (-k2).toNat) : Nat) : ℚ) = h
      at herr3 ⊢
    generalize (m1 : ℚ) * (2 : ℚ) ^ k1 = v1 at herr1 herr2
    generalize (m2 : ℚ) * (2 : ℚ) ^ k2 = v2 at herr2 herr3
    set q : ℚ := (ups : ℚ) / (total : ℚ) with hq_def
    have hq0 : 0 < q := div_pos hU hT
    have hq1 : q ≤ 1 := (div_le_one hT).mpr hUT
    have hUq : (ups : ℚ) = q * (total : ℚ) := by
      rw [hq_def]; field_simp
    rw [abs_le] at herr1 herr2 herr3
    have e53 : q / 2 ^ 53 ≤ 1 / 2 ^ 53 := by
      apply div_le_div_of_nonneg_right hq1 (by positivity)
    have hv1 : v1 ≤ 2 := by
      have : q / 2 ^ 53 ≤ 1 := by
        calc q / 2 ^ 53 ≤ 1 / 2 ^ 53 := e53
          _ ≤ 1 := by norm_num
      linarith [herr1.2]
    have hv1' : v1 * 100 / 2 ^ 53 ≤ 200 / 2 ^ 53 := by
      apply div_le_div_of_nonneg_right _ (by positivity)
      linarith
    -- the distance of the hundredths from the exact value
    have hdist : |h - 10000 * q| ≤ 1 / 2 + 30000 / 2 ^ 53 := by
      rw [abs_le]
      constructor <;> linarith [herr1.1, herr1.2, herr2.1, herr2.2, herr3.1, herr3.2]
    have hmul : |h * (total : ℚ) - 10000 * (ups : ℚ)| = |h - 10000 * q| * (total : ℚ) := by
      rw [hUq, ← abs_of_pos hT, ← abs_mul, abs_of_pos hT]
      congr 1
      ring
    rw [hmul]
    have hsmall : 30000 / 2 ^ 53 * (total : ℚ) < 1 / 2 := by
      have : 30000 / 2 ^ 53 * (total : ℚ) < 30000 / 2 ^ 53 * 2 ^ 37 := by
        apply mul_lt_mul_of_pos_left hT37 (by positivity)
      have e : (30000 : ℚ) / 2 ^ 53 * 2 ^ 37 < 1 / 2 := by norm_num
      linarith
    calc |h - 10000 * q| * (total : ℚ) ≤ (1 / 2 + 30000 / 2 ^ 53) * (total : ℚ) :=
          mul_le_mul_of_nonneg_right hdist hT.le
      _ = (total : ℚ) / 2 + 30000 / 2 ^ 53 * (total : ℚ) := by ring
      _ < ((total : ℚ) + 1) / 2 := by linarith

/-! ## The availability block -/

/-- C8 (amended): for counts `0 ≤ ups ≤ total`, `1 ≤ total`, the availability
block is up = ups, down = total - ups, total = total, so up + down = total and
down ≥ 0; for a total below `2^37` the percentage text is the two-decimal text
of a number of hundredths within half a hundredth of the exact percentage,
followed by "%"; for 2 of 3 it is up 2, down 1, total 3, "66.67%". -/
theorem availability_block (ups total : Int) (h0 : 0 ≤ ups) (h1 : ups ≤ total)
    (h2 : 1 ≤ total) :
    (availability ups total).ups = ups ∧
    (availability ups total).downs = total - ups ∧
    (availability ups total).total = total ∧
    (availability ups total).ups + (availability ups total).downs =
      (availability ups total).total ∧
    0 ≤ (availability ups total).downs ∧
    (total < 2 ^ 37 →
      ∃ h : Nat, (availability ups total).average = fixedText 2 h ++ "%" ∧
        2 * |(h : Int) * total - 10000 * ups| ≤ total) ∧
    availability 2 3 = ⟨2, 1, 3, "66.67%"⟩ := by
  refine ⟨rfl, rfl, rfl, ?_, ?_, ?_, by decide⟩
  · show ups + (total - ups) = total
    omega
  · show 0 ≤ total - ups
    omega
  · intro h3
    lift ups to Nat using h0
    lift total to Nat using (by omega : (0 : Int) ≤ total)
    have h1n : ups ≤ total := by exact_mod_cast h1
    have h2n : 0 < total := by exact_mod_cast h2
    have h3n : total < 2 ^ 37 := by exact_mod_cast h3
    rcases Nat.eq_zero_or_pos ups with hz | hpos
    · subst hz
      refine ⟨0, average_zero total h2n (by omega), ?_⟩
      simp
    · obtain ⟨h, htext, hnear⟩ := average_near ups total hpos h1n h3n
      refine ⟨h, htext, ?_⟩
      have hcast : (((|(h : Int) * (total : Int) - 10000 * (ups : Int)| : Int) : ℚ)) =
          |(h : ℚ) * (total : ℚ) - 10000 * (ups : ℚ)| := by
        push_cast
        rfl
      rw [← hcast] at hnear
      have hlt : (2 * |(h : Int) * (total : Int) - 10000 * (ups : Int)| : ℚ) <
          (((total : Int) + 1 : Int) : ℚ) := by
        push_cast
        push_cast at hnear
        linarith
      have hlt' : 2 * |(h : Int) * (total : Int) - 10000 * (ups : Int)| < (total : Int) + 1 := by
        exact_mod_cast hlt
      omega

theorem availability_block_witness :
    availability 1 3 = ⟨1, 2, 3, "33.33%"⟩ ∧
    ∃ h : Nat, (availability 1 3).average = fixedText 2 h ++ "%" ∧
      2 * |(h : Int) * 3 - 10000 * 1| ≤ 3 :=
  ⟨by decide,
    (availability_block 1 3 (by decide) (by decide) (by decide)).2.2.2.2.2.1 (by decide)⟩

/-- C8 (counterexample): the percentage text is not the exact percentage
rounded to two decimals. 23 of 160 is 14.375 % and is written "14.37%", 49 of 160
is 30.625 % and is written "30.63%", so an exact tie goes down once and up once;
and for 360428707677995 of 2^49, a little below 64.025 %, the text "64.03%" is
not the text of any number of hundredths within half a hundredth of the exact
percentage (the nearest is "64.02%"). -/
theorem availability_average_not_nearest :
    ((availability 23 160).average = "14.37%" ∧ (100 : ℚ) * 23 / 160 = 14375 / 1000) ∧
    ((availability 49 160).average = "30.63%" ∧ (100 : ℚ) * 49 / 160 = 30625 / 1000) ∧
    ((availability 360428707677995 562949953421312).average = "64.03%" ∧
      ¬ ∃ h : Nat,
        (availability 360428707677995 562949953421312).average = fixedText 2 h ++ "%" ∧
          2 * |(h : Int) * 562949953421312 - 10000 * 360428707677995| ≤ 562949953421312) := by
  have hav : (availability 360428707677995 562949953421312).average = "64.03%" := by decide
  refine ⟨⟨by decide, by norm_num⟩, ⟨by decide, by norm_num⟩, ⟨hav, ?_⟩⟩
  rintro ⟨h, htext, hnear⟩
  rw [hav] at htext
  have h6402 : h = 6402 := by
    rcases abs_le.mp (by omega :
      |(h : Int) * 562949953421312 - 10000 * 360428707677995| ≤ 281474976710656) with ⟨h1, h2⟩
    omega
  subst h6402
  revert htext
  decide

/-- C9: whenever the first statement of `ApiStatus` finds a row, the total the
third statement counts for the url on the same store is at least 1, and
whenever `ApiStatus` reaches line 78 and writes a success body, the total it
divides by is that count: at least 1, not below the success count, and as
`float64(totalChecks)` a finite number other than zero, so the division never
divides by zero. -/
theorem ApiStatus_total_pos (db : Database) (url : String) :
    (∀ r, QueryRow (db.failing 0) (statusRows db url) = .ok r →
      1 ≤ countTotal db url ∧
        countRows db url = [((countUps db url : Int), (countTotal db url : Int))]) ∧
    (∀ body, (ApiStatus db url).response = .detailed body →
      1 ≤ body.availability.total ∧ body.availability.total = (countTotal db url : Int) ∧
        0 ≤ body.availability.ups ∧ body.availability.ups ≤ body.availability.total ∧
        ∃ m k, float64 body.availability.total = .fin false m k ∧ 0 < m) := by
  have hfound : ∀ c w, statusRows db url = [(c, w)] →
      1 ≤ countTotal db url ∧ c ∈ db.checks := by
    intro c w hrows
    rcases statusRows_cases db url with ⟨h0, _⟩ | ⟨c1, w1, h1, hc, hw, hid, hurl, _⟩
    · rw [hrows] at h0; exact absurd h0 (by simp)
    · rw [hrows] at h1
      simp only [List.cons.injEq, Prod.mk.injEq, and_true] at h1
      obtain ⟨rfl, rfl⟩ := h1
      have hmem : (c, w) ∈ ((joined db).filter fun r => r.2.url == url) := by
        simp only [List.mem_filter, mem_joined, beq_iff_eq]
        exact ⟨⟨hc, hw, hid⟩, hurl⟩
      exact ⟨List.length_pos_of_mem hmem, hc⟩
  constructor
  · intro r hr
    rcases statusRows_cases db url with ⟨h0, _⟩ | ⟨c, w, hrows, _⟩
    · exfalso
      revert hr
      cases hf : db.failing 0 <;> simp [QueryRow, h0]
    · obtain ⟨hpos, hc⟩ := hfound c w hrows
      exact ⟨hpos, countRows_of_mem db url c hc⟩
  · intro body h
    obtain ⟨⟨c, w, hrows⟩, hav⟩ := ApiStatus_detailed_inv db url body h
    obtain ⟨hpos, _⟩ := hfound c w hrows
    have hle := countUps_le_countTotal db url
    have htotal : (1 : Int) ≤ (availability (countUps db url) (countTotal db url)).total := by
      show (1 : Int) ≤ (countTotal db url : Int)
      exact_mod_cast hpos
    rw [hav]
    refine ⟨htotal, rfl, ?_, ?_, float64_pos _ htotal⟩
    · show (0 : Int) ≤ (countUps db url : Int)
      exact Int.ofNat_nonneg _
    · show (countUps db url : Int) ≤ (countTotal db url : Int)
      exact_mod_cast hle

theorem ApiStatus_total_pos_witness :
    (ApiStatus sampleStore "b.example").response = .detailed sampleBody ∧
      1 ≤ sampleBody.availability.total ∧
      sampleBody.availability.total = (countTotal sampleStore "b.example" : Int) ∧
      0 ≤ sampleBody.availability.ups ∧
      sampleBody.availability.ups ≤ sampleBody.availability.total ∧
      ∃ m k, float64 sampleBody.availability.total = .fin false m k ∧ 0 < m :=
  ⟨by decide, (ApiStatus_total_pos sampleStore "b.example").2 sampleBody (by decide)⟩

/-! ## The handler `ApiResults` -/

theorem length_ne_zero_iff_ne_empty (s : String) : s.length ≠ 0 ↔ s ≠ "" := by
  constructor
  · intro h hs
    rw [hs] at h
    exact h rfl
  · intro h hl
    apply h
    have : s.data = [] := List.length_eq_zero.mp hl
    exact String.ext this

/-- The three ways lines 93-106 end. -/
theorem limitParam_cases (limitString : String) :
    (limitString ≠ "" ∧ Atoi limitString = none ∧
      limitParam limitString =
        .error (.message 400 false "Unable to parse given limit-parameter.")) ∨
    (limitString ≠ "" ∧ (∃ v, Atoi limitString = some v ∧ 9999 < v) ∧
      limitParam limitString =
        .error (.message 400 false
          "Unable to process your Request: Limit has to be less than 10000.")) ∨
    ∃ limit, paramValue limitString 100 limit ∧ limitParam limitString = .ok limit := by
  by_cases he : limitString = ""
  · right; right
    exact ⟨100, Or.inl ⟨he, rfl⟩, by subst he; rfl⟩
  · have hlen := (length_ne_zero_iff_ne_empty limitString).mpr he
    cases hp : Atoi limitString with
    | none =>
      left
      exact ⟨he, rfl, by simp [limitParam, hlen, hp, SendJsonMessage]⟩
    | some v =>
      by_cases hv : 9999 < v
      · right; left
        exact ⟨he, ⟨v, rfl, hv⟩, by simp [limitParam, hlen, hp, hv, SendJsonMessage]⟩
      · right; right
        exact ⟨v, Or.inr ⟨he, hp, by omega⟩, by simp [limitParam, hlen, hp, hv]⟩

/-- The three ways lines 109-122 end. -/
theorem offsetParam_cases (offsetString : String) :
    (offsetString ≠ "" ∧ Atoi offsetString = none ∧
      offsetParam offsetString =
        .error (.message 400 false "Unable to parse given offset-parameter.")) ∨
    (offsetString ≠ "" ∧ (∃ v, Atoi offsetString = some v ∧ 9999 < v) ∧
      offsetParam offsetString =
        .error (.message 400 false
          "Unable to process your Request: Offset has to be less than 10000.")) ∨
    ∃ offset, paramValue offsetString 0 offset ∧ offsetParam offsetString = .ok offset := by
  by_cases he : offsetString = ""
  · right; right
    exact ⟨0, Or.inl ⟨he, rfl⟩, by subst he; rfl⟩
  · have hlen := (length_ne_zero_iff_ne_empty offsetString).mpr he
    cases hp : Atoi offsetString with
    | none =>
      left
      exact ⟨he, rfl, by simp [offsetParam, hlen, hp, SendJsonMessage]⟩
    | some v =>
      by_cases hv : 9999 < v
      · right; left
        exact ⟨he, ⟨v, rfl, hv⟩, by simp [offsetParam, hlen, hp, hv, SendJsonMessage]⟩
      · right; right
        exact ⟨v, Or.inr ⟨he, hp, by omega⟩, by simp [offsetParam, hlen, hp, hv]⟩

theorem paramValue_not_rejected (value : String) (default v : Int)
    (h : paramValue value default v) : ¬ paramRejected value := by
  rintro ⟨hne, hbad⟩
  rcases h with ⟨he, _⟩ | ⟨_, hp, hle⟩
  · exact hne he
  · rcases hbad with hn | ⟨u, hu, hgt⟩
    · rw [hp] at hn; cases hn
    · rw [hp] at hu; cases hu; omega

theorem paramValue_unique (value : String) (default v u : Int)
    (h : paramValue value default v) (k : paramValue value default u) : v = u := by
  rcases h with ⟨he, hv⟩ | ⟨hne, hp, _⟩ <;> rcases k with ⟨ke, ku⟩ | ⟨kne, kp, _⟩
  · rw [hv, ku]
  · exact absurd he kne
  · exact absurd ke hne
  · rw [hp] at kp; cases kp; rfl

/-- The statement of `sendResults` and the two responses it can write. -/
theorem sendResults_cases (db : Database) (url : String) (limit offset : Int) :
    (sendResults db url limit offset).queries = [.results url limit offset] ∧
    (((sendResults db url limit offset).response =
        .message 500 false "Unable to process your Request." ∧
      (db.failing 0 = true ∨ resultRows db url limit offset = none)) ∨
    ∃ rs, db.failing 0 = false ∧ resultRows db url limit offset = some rs ∧
      (sendResults db url limit offset).response = .results ⟨true, rs.map resultOfRow⟩) := by
  cases hr : resultRows db url limit offset with
  | none => simp [sendResults, hr, SendJsonMessage]
  | some rs =>
    cases hf : db.failing 0 with
    | true => simp [sendResults, hr, hf, Query, SendJsonMessage]
    | false => simp [sendResults, hr, hf, Query]

/-- C6: `ApiResults` answers 400 with `success = false` exactly when the limit
or the offset is rejected (present, and no integer or above 9999), and has then
sent no statement; the message names the limit when the limit is rejected and
the offset only when the limit is accepted; otherwise the one statement sent
carries the parsed limit, or 100 when absent, and the parsed offset, or 0 when
absent, negative values included. -/
theorem ApiResults_badRequest_iff (db : Database) (limitString offsetString url : String) :
    ((∃ text, (ApiResults db limitString offsetString url).response =
        .message 400 false text) ↔ paramRejected limitString ∨ paramRejected offsetString) ∧
    (paramRejected limitString ∨ paramRejected offsetString →
      (ApiResults db limitString offsetString url).queries = []) ∧
    (limitString ≠ "" → Atoi limitString = none →
      (ApiResults db limitString offsetString url).response =
        .message 400 false "Unable to parse given limit-parameter.") ∧
    (limitString ≠ "" → (∃ v, Atoi limitString = some v ∧ 9999 < v) →
      (ApiResults db limitString offsetString url).response =
        .message 400 false
          "Unable to process your Request: Limit has to be less than 10000.") ∧
    (¬ paramRejected limitString → offsetString ≠ "" → Atoi offsetString = none →
      (ApiResults db limitString offsetString url).response =
        .message 400 false "Unable to parse given offset-parameter.") ∧
    (¬ paramRejected limitString → offsetString ≠ "" →
      (∃ v, Atoi offsetString = some v ∧ 9999 < v) →
      (ApiResults db limitString offsetString url).response =
        .message 400 false
          "Unable to process your Request: Offset has to be less than 10000.") ∧
    (∀ limit offset, paramValue limitString 100 limit → paramValue offsetString 0 offset →
      (ApiResults db limitString offsetString url).queries = [.results url limit offset]) := by
  rcases limitParam_cases limitString with ⟨hne, hp, hl⟩ | ⟨hne, hp, hl⟩ | ⟨limit, hpv, hl⟩
  · have hrej : paramRejected limitString := ⟨hne, Or.inl hp⟩
    have hres : ApiResults db limitString offsetString url =
        ⟨[], .message 400 false "Unable to parse given limit-parameter."⟩ := by
      simp [ApiResults, hl]
    rw [hres]
    refine ⟨⟨fun _ => Or.inl hrej, fun _ => ⟨_, rfl⟩⟩, fun _ => rfl, fun _ _ => rfl, ?_,
      fun h => absurd hrej h, fun h => absurd hrej h, ?_⟩
    · rintro _ ⟨v, hv, _⟩
      rw [hp] at hv; cases hv
    · intro limit offset hlv _
      exact absurd hrej (paramValue_not_rejected _ _ _ hlv)
  · have hrej : paramRejected limitString := ⟨hne, Or.inr hp⟩
    have hres : ApiResults db limitString offsetString url =
        ⟨[], .message 400 false
          "Unable to process your Request: Limit has to be less than 10000."⟩ := by
      simp [ApiResults, hl]
    rw [hres]
    refine ⟨⟨fun _ => Or.inl hrej, fun _ => ⟨_, rfl⟩⟩, fun _ => rfl, ?_, fun _ _ => rfl,
      fun h => absurd hrej h, fun h => absurd hrej h, ?_⟩
    · intro _ hn
      obtain ⟨v, hv, _⟩ := hp
      rw [hn] at hv; cases hv
    · intro limit offset hlv _
      exact absurd hrej (paramValue_not_rejected _ _ _ hlv)
  · have hnrej := paramValue_not_rejected _ _ _ hpv
    have hl1 : limitString ≠ "" → Atoi limitString = none → False :=
      fun h1 h2 => hnrej ⟨h1, Or.inl h2⟩
    have hl2 : limitString ≠ "" → (∃ v, Atoi limitString = some v ∧ 9999 < v) → False :=
      fun h1 h2 => hnrej ⟨h1, Or.inr h2⟩
    rcases offsetParam_cases offsetString with ⟨one, op, ho⟩ | ⟨one, op, ho⟩ | ⟨offset, opv, ho⟩
    · have orej : paramRejected offsetString := ⟨one, Or.inl op⟩
      have hres : ApiResults db limitString offsetString url =
          ⟨[], .message 400 false "Unable to parse given offset-parameter."⟩ := by
        simp [ApiResults, hl, ho]
      rw [hres]
      refine ⟨⟨fun _ => Or.inr orej, fun _ => ⟨_, rfl⟩⟩, fun _ => rfl,
        fun h1 h2 => (hl1 h1 h2).elim, fun h1 h2 => (hl2 h1 h2).elim, fun _ _ _ => rfl, ?_, ?_⟩
      · rintro _ _ ⟨v, hv, _⟩
        rw [op] at hv; cases hv
      · intro limit1 offset1 _ hov
        exact absurd orej (paramValue_not_rejected _ _ _ hov)
    · have orej : paramRejected offsetString := ⟨one, Or.inr op⟩
      have hres : ApiResults db limitString offsetString url =
          ⟨[], .message 400 false
            "Unable to process your Request: Offset has to be less than 10000."⟩ := by
        simp [ApiResults, hl, ho]
      rw [hres]
      refine ⟨⟨fun _ => Or.inr orej, fun _ => ⟨_, rfl⟩⟩, fun _ => rfl,
        fun h1 h2 => (hl1 h1 h2).elim, fun h1 h2 => (hl2 h1 h2).elim, ?_, fun _ _ _ => rfl, ?_⟩
      · intro _ _ hn
        obtain ⟨v, hv, _⟩ := op
        rw [hn] at hv; cases hv
      · intro limit1 offset1 _ hov
        exact absurd orej (paramValue_not_rejected _ _ _ hov)
    · have onrej := paramValue_not_rejected _ _ _ opv
      have hres : ApiResults db limitString offsetString url =
          sendResults db url limit offset := by
        simp [ApiResults, hl, ho]
      rw [hres]
      obtain ⟨hq, hresp⟩ := sendResults_cases db url limit offset
      refine ⟨⟨?_, ?_⟩, ?_, fun h1 h2 => (hl1 h1 h2).elim, fun h1 h2 => (hl2 h1 h2).elim,
        fun _ h1 h2 => (onrej ⟨h1, Or.inl h2⟩).elim,
        fun _ h1 h2 => (onrej ⟨h1, Or.inr h2⟩).elim, ?_⟩
      · rintro ⟨text, ht⟩
        rcases hresp with ⟨h500, _⟩ | ⟨rs, _, _, hok⟩
        · rw [h500] at ht; cases ht
        · rw [hok] at ht; cases ht
      · rintro (h | h)
        · exact absurd h hnrej
        · exact absurd h onrej
      · rintro (h | h)
        · exact absurd h hnrej
        · exact absurd h onrej
      · intro limit1 offset1 hlv hov
        rw [hq, paramValue_unique _ _ _ _ hlv hpv, paramValue_unique _ _ _ _ hov opv]

theorem ApiResults_badRequest_iff_witness :
    (ApiResults sampleStore "-5" "" "b.example").queries = [.results "b.example" (-5) 0] ∧
    (ApiResults sampleStore "abc" "10000" "b.example").response =
      .message 400 false "Unable to parse given limit-parameter." ∧
    (ApiResults sampleStore "10000" "" "b.example").response =
      .message 400 false "Unable to process your Request: Limit has to be less than 10000." ∧
    (ApiResults sampleStore "9999" "10000" "b.example").queries = [] :=
  ⟨(ApiResults_badRequest_iff sampleStore "-5" "" "b.example").2.2.2.2.2.2 (-5) 0
      (Or.inr ⟨by decide, by decide, by decide⟩) (Or.inl ⟨rfl, rfl⟩),
    (ApiResults_badRequest_iff sampleStore "abc" "10000" "b.example").2.2.1
      (by decide) (by decide),
    (ApiResults_badRequest_iff sampleStore "10000" "" "b.example").2.2.2.1
      (by decide) ⟨10000, by decide, by decide⟩,
    (ApiResults_badRequest_iff sampleStore "9999" "10000" "b.example").2.1
      (Or.inr ⟨by decide, Or.inr ⟨10000, by decide, by decide⟩⟩)⟩

/-- With distinct website ids a check is joined to at most one website, so the
checks of the joined rows that pass a filter on the website are the checks with
such a website, in table order. -/
theorem join_one_check (ws : List Website) (q : Website → Bool) (c : Check)
    (hkey : (ws.map fun w => w.id).Nodup) :
    ((((ws.filter fun w => c.websiteId == w.id).map fun w => (c, w)).filter
        fun r => q r.2).map Prod.fst) =
      if ws.any (fun w => c.websiteId == w.id && q w) then [c] else [] := by
  induction ws with
  | nil => simp
  | cons w ws ih =>
    rw [List.map_cons, List.nodup_cons] at hkey
    have ih1 := ih hkey.2
    by_cases hid : c.websiteId = w.id
    · have hnone : ∀ v ∈ ws, ¬ c.websiteId = v.id := by
        intro v hv hcv
        apply hkey.1
        rw [← hid, hcv]
        exact List.mem_map_of_mem (fun w => w.id) hv
      have hfil : (ws.filter fun v => c.websiteId == v.id) = [] := by
        rw [List.filter_eq_nil_iff]
        intro v hv
        simpa using hnone v hv
      have hany : ws.any (fun v => c.websiteId == v.id && q v) = false := by
        rw [List.any_eq_false]
        intro v hv
        simp [hnone v hv]
      have hhead : (c.websiteId == w.id) = true := by simpa using hid
      rw [List.filter_cons, if_pos hhead, hfil, List.any_cons, hany, hhead]
      by_cases hq : q w = true
      · simp [hq]
      · simp [hq]
    · have hhead : (c.websiteId == w.id) = false := by simpa using hid
      rw [List.filter_cons, List.any_cons, hhead]
      simpa using ih1

theorem map_fst_filter_joined (db : Database) (q : Website → Bool)
    (hkey : (db.websites.map fun w => w.id).Nodup) :
    ((joined db).filter fun r => q r.2).map Prod.fst =
      db.checks.filter fun c => db.websites.any fun w => c.websiteId == w.id && q w := by
  unfold joined
  induction db.checks with
  | nil => simp
  | cons c cs ih =>
    rw [List.flatMap_cons, List.filter_append, List.map_append, ih,
      join_one_check db.websites q c hkey, List.filter_cons]
    by_cases h : (db.websites.any fun w => c.websiteId == w.id && q w) = true
    · simp [h]
    · simp [h]

/-- C7: on a store whose statement does not fail, for an accepted non-negative
limit and offset `ApiResults` writes a success body whose results are the checks
of the rows joined to an enabled website with the url (with distinct website
ids: the checks that belong to an enabled website with the url, each once), in
some order of descending timestamps, the first `offset` dropped and at most
`limit` kept, each as status code, " - ", status text, the response time as
stored, and the time; for a url of no enabled website the body is the empty
sequence. -/
theorem ApiResults_window (db : Database) (limitString offsetString url : String)
    (limit offset : Int) (hok : db.failing 0 = false)
    (hl : paramValue limitString 100 limit) (hl0 : 0 ≤ limit)
    (ho : paramValue offsetString 0 offset) (ho0 : 0 ≤ offset) :
    ∃ sorted : List Check,
      sorted.Perm
        (((joined db).filter fun r => r.2.url == url && r.2.enabled == 1).map Prod.fst) ∧
      ((db.websites.map fun w => w.id).Nodup → sorted.Perm (checksOfEnabled db url)) ∧
      sorted.Sorted (fun a b => b.time.data ≤ a.time.data) ∧
      (ApiResults db limitString offsetString url).response =
        .results ⟨true, ((sorted.drop offset.toNat).take limit.toNat).map fun c =>
          ⟨c.statusCode ++ " - " ++ c.statusText, c.responseTime, c.time⟩⟩ ∧
      ((sorted.drop offset.toNat).take limit.toNat).length ≤ limit.toNat ∧
      ((∀ w ∈ db.websites, w.url = url → w.enabled ≠ 1) →
        (ApiResults db limitString offsetString url).response = .results ⟨true, []⟩) := by
  have hlim : limitParam limitString = .ok limit := by
    rcases limitParam_cases limitString with ⟨h1, h2, _⟩ | ⟨h1, h2, _⟩ | ⟨v, hv, h⟩
    · exact absurd ⟨h1, Or.inl h2⟩ (paramValue_not_rejected _ _ _ hl)
    · exact absurd ⟨h1, Or.inr h2⟩ (paramValue_not_rejected _ _ _ hl)
    · rw [h, paramValue_unique _ _ _ _ hv hl]
  have hoff : offsetParam offsetString = .ok offset := by
    rcases offsetParam_cases offsetString with ⟨h1, h2, _⟩ | ⟨h1, h2, _⟩ | ⟨v, hv, h⟩
    · exact absurd ⟨h1, Or.inl h2⟩ (paramValue_not_rejected _ _ _ ho)
    · exact absurd ⟨h1, Or.inr h2⟩ (paramValue_not_rejected _ _ _ ho)
    · rw [h, paramValue_unique _ _ _ _ hv ho]
  have hwin : resultRows db url limit offset =
      some (((resultRowsSorted db url).drop offset.toNat).take limit.toNat) := by
    have : ¬ (limit < 0 ∨ offset < 0) := by omega
    simp [resultRows, limitOffset, this]
  have hresp : (ApiResults db limitString offsetString url).response =
      .results ⟨true, ((((resultRowsSorted db url).map Prod.fst).drop offset.toNat).take
        limit.toNat).map fun c =>
          ⟨c.statusCode ++ " - " ++ c.statusText, c.responseTime, c.time⟩⟩ := by
    simp only [ApiResults, hlim, hoff, sendResults, hwin, Query, hok]
    simp only [Bool.false_eq_true, if_false, List.map_take, List.map_drop, List.map_map]
    rfl
  have hperm : ((resultRowsSorted db url).map Prod.fst).Perm
      (((joined db).filter fun r => r.2.url == url && r.2.enabled == 1).map Prod.fst) :=
    (List.perm_insertionSort timeDesc _).map Prod.fst
  refine ⟨(resultRowsSorted db url).map Prod.fst, hperm, ?_, ?_, hresp, ?_, ?_⟩
  · intro hkey
    have h2 := map_fst_filter_joined db (fun w => w.url == url && w.enabled == 1) hkey
    rw [h2] at hperm
    exact hperm
  · have hs : (resultRowsSorted db url).Sorted timeDesc := List.sorted_insertionSort timeDesc _
    unfold List.Sorted at hs ⊢
    rw [List.pairwise_map]
    exact hs
  · exact (List.length_take_le _ _)
  · intro hnone
    have hempty : ((joined db).filter fun r => r.2.url == url && r.2.enabled == 1) = [] := by
      rw [List.filter_eq_nil_iff]
      rintro ⟨c, w⟩ hmem
      have hw := ((mem_joined db c w).mp hmem).2.1
      simp only [Bool.and_eq_true, beq_iff_eq, not_and]
      intro hurl hen
      exact hnone w hw hurl hen
    rw [hempty] at hperm
    rw [hresp, hperm.eq_nil]
    simp

theorem ApiResults_window_witness :
    ∃ sorted : List Check,
      sorted.Perm
        (((joined sampleStore).filter fun r =>
          r.2.url == "b.example" && r.2.enabled == 1).map Prod.fst) ∧
      ((sampleStore.websites.map fun w => w.id).Nodup →
        sorted.Perm (checksOfEnabled sampleStore "b.example")) ∧
      sorted.Sorted (fun a b => b.time.data ≤ a.time.data) ∧
      (ApiResults sampleStore "1" "1" "b.example").response =
        .results ⟨true, ((sorted.drop (1 : Int).toNat).take (1 : Int).toNat).map fun c =>
          ⟨c.statusCode ++ " - " ++ c.statusText, c.responseTime, c.time⟩⟩ ∧
      ((sorted.drop (1 : Int).toNat).take (1 : Int).toNat).length ≤ (1 : Int).toNat ∧
      ((∀ w ∈ sampleStore.websites, w.url = "b.example" → w.enabled ≠ 1) →
        (ApiResults sampleStore "1" "1" "b.example").response = .results ⟨true, []⟩) :=
  ApiResults_window sampleStore "1" "1" "b.example" 1 1 rfl
    (Or.inr ⟨by decide, by decide, by decide⟩) (by decide)
    (Or.inr ⟨by decide, by decide, by decide⟩) (by decide)

/-! ## The handler `ApiWebsites` -/

/-- An assignment within bounds succeeds and keeps the length and the columns
other than `Status`. -/
theorem setStatus_spec (websites : List BasicWebsite) (i : Nat) (status : String)
    (hi : i < websites.length) :
    ∃ websites1, setStatus websites i status = some websites1 ∧
      websites1.length = websites.length ∧
      websites1.map baseColumns = websites.map baseColumns := by
  have hget : websites[i]? = some websites[i] := List.getElem?_eq_getElem hi
  refine ⟨websites.set i { websites[i] with Status := status }, ?_, ?_, ?_⟩
  · simp [setStatus, hget]
  · simp
  · rw [List.map_set]
    apply List.ext_getElem
    · simp
    · intro n h1 h2
      rw [List.getElem_set]
      split
      · rename_i hin
        subst hin
        simp [baseColumns]
      · rfl

/-- The second loop stays within bounds when the rows left fit behind the
index, and keeps the length and the columns other than `Status`. -/
theorem statusLoop_spec (rows : List (Check × Website)) :
    ∀ (i : Nat) (websites : List BasicWebsite), i + rows.length ≤ websites.length →
      ∃ websites1, statusLoop rows i websites = some websites1 ∧
        websites1.length = websites.length ∧
        websites1.map baseColumns = websites.map baseColumns := by
  induction rows with
  | nil =>
    intro i websites _
    exact ⟨websites, rfl, rfl, rfl⟩
  | cons r rest ih =>
    intro i websites hlen
    rw [List.length_cons] at hlen
    obtain ⟨ws1, hset, hl1, hc1⟩ :=
      setStatus_spec websites i (r.1.statusCode ++ " - " ++ r.1.statusText) (by omega)
    obtain ⟨ws2, hloop, hl2, hc2⟩ := ih (i + 1) ws1 (by omega)
    refine ⟨ws2, ?_, by omega, by rw [hc2, hc1]⟩
    simp [statusLoop, hset, hloop]

/-- The status statement of `ApiWebsites` returns at most `totalRows` rows. -/
theorem websiteStatusRows_length_le (db : Database) (totalRows : Nat) :
    (websiteStatusRows db totalRows).length ≤ totalRows := by
  unfold websiteStatusRows
  rw [List.length_insertionSort]
  exact List.length_take_le _ _

/-- C10: the status statement of `ApiWebsites` returns at most `totalRows` rows,
so for the websites the first loop appended (all rows of the first statement,
or the rows read before its iteration ended early) and for every number of
status rows the second loop gets to read, every assignment `websites[i].Status`
is within bounds and only the field `Status` changes; `ApiWebsites` therefore
never stops on an index out of range, also for no row at all, and a body it
writes has as many entries as the first loop appended, with name, protocol and
url as read there; on a store without faults these are all rows of the first
statement and the body is written. -/
theorem ApiWebsites_in_bounds (db : Database) :
    (∀ totalRows, (websiteStatusRows db totalRows).length ≤ totalRows) ∧
    (∀ appended statusRead, ∃ websites1,
      statusLoop
          ((websiteStatusRows db ((websiteRows db).take appended).length).take statusRead) 0
          (((websiteRows db).take appended).map fun w => ⟨w.name, w.protocol, w.url, ""⟩) =
        some websites1 ∧
      websites1.length = ((websiteRows db).take appended).length ∧
      websites1.map baseColumns =
        ((websiteRows db).take appended).map fun w => (w.name, w.protocol, w.url)) ∧
    (ApiWebsites db).response ≠ .indexOutOfRange ∧
    (∀ body, (ApiWebsites db).response = .websites body →
      ∃ rows, readRows (db.faults 0) (websiteRows db) = .ok rows ∧
        (ApiWebsites db).queries = [.websites, .websiteStatus rows.length] ∧
        body.websites.length = rows.length ∧
        body.websites.map baseColumns = rows.map fun w => (w.name, w.protocol, w.url)) ∧
    ((∀ n, db.failing n = false) →
      ∃ body, (ApiWebsites db).response = .websites body ∧
        body.websites.length = (websiteRows db).length ∧
        body.websites.map baseColumns =
          (websiteRows db).map fun w => (w.name, w.protocol, w.url)) := by
  have hbase : ∀ rows : List Website,
      (rows.map fun w => (⟨w.name, w.protocol, w.url, ""⟩ : BasicWebsite)).map baseColumns =
        rows.map fun w => (w.name, w.protocol, w.url) := by
    intro rows
    rw [List.map_map]
    rfl
  -- the second loop on the websites appended from `rows` and on any rows read
  have hloop : ∀ (rows : List Website) (read : List (Check × Website)),
      read.length ≤ rows.length →
      ∃ websites1,
        statusLoop read 0 (rows.map fun w => ⟨w.name, w.protocol, w.url, ""⟩) = some websites1 ∧
        websites1.length = rows.length ∧
        websites1.map baseColumns = rows.map fun w => (w.name, w.protocol, w.url) := by
    intro rows read hlen
    obtain ⟨ws1, h1, h2, h3⟩ := statusLoop_spec read 0
      (rows.map fun w => ⟨w.name, w.protocol, w.url, ""⟩) (by simpa using hlen)
    exact ⟨ws1, h1, by simpa using h2, by rw [h3, hbase]⟩
  have hread : ∀ (fault : Fault) (n : Nat) (read : List (Check × Website)),
      readRows fault (websiteStatusRows db n) = .ok read → read.length ≤ n := by
    intro fault n read hr
    have hle := websiteStatusRows_length_le db n
    cases fault with
    | none =>
      simp only [readRows, Except.ok.injEq] at hr
      rw [← hr]; exact hle
    | error => simp [readRows] at hr
    | interrupted k =>
      simp only [readRows, Except.ok.injEq] at hr
      rw [← hr]
      exact le_trans (List.length_take_le' _ _) hle
  -- the run of the handler, by what the two loops read
  have hrun : (∃ text, (ApiWebsites db).response = .message 500 false text) ∨
      ∃ rows read websites1, readRows (db.faults 0) (websiteRows db) = .ok rows ∧
        readRows (db.faults 1) (websiteStatusRows db rows.length) = .ok read ∧
        statusLoop read 0 (rows.map fun w => ⟨w.name, w.protocol, w.url, ""⟩) =
          some websites1 ∧
        websites1.length = rows.length ∧
        websites1.map baseColumns = (rows.map fun w => (w.name, w.protocol, w.url)) ∧
        ApiWebsites db =
          ⟨[.websites, .websiteStatus rows.length], .websites ⟨true, websites1⟩⟩ := by
    cases h0 : readRows (db.faults 0) (websiteRows db) with
    | error e =>
      left
      exact ⟨"Unable to process your Request.", by simp [ApiWebsites, h0, SendJsonMessage]⟩
    | ok rows =>
      cases h1 : readRows (db.faults 1) (websiteStatusRows db rows.length) with
      | error e =>
        left
        exact ⟨"Unable to process your Request.",
          by simp [ApiWebsites, h0, h1, SendJsonMessage]⟩
      | ok read =>
        right
        obtain ⟨ws1, hl, hlen, hcol⟩ := hloop rows read (hread _ _ _ h1)
        exact ⟨rows, read, ws1, rfl, h1, hl, hlen, hcol, by simp [ApiWebsites, h0, h1, hl]⟩
  refine ⟨websiteStatusRows_length_le db, ?_, ?_, ?_, ?_⟩
  · intro appended statusRead
    exact hloop ((websiteRows db).take appended) _
      (le_trans (List.length_take_le' _ _) (websiteStatusRows_length_le db _))
  · rcases hrun with ⟨text, h⟩ | ⟨rows, read, ws1, _, _, _, _, _, h⟩
    · rw [h]; simp
    · rw [h]; simp
  · intro body hb
    rcases hrun with ⟨text, h⟩ | ⟨rows, read, ws1, h0, _, _, hlen, hcol, h⟩
    · rw [h] at hb; cases hb
    · rw [h] at hb ⊢
      simp only [Response.websites.injEq] at hb
      subst hb
      exact ⟨rows, h0, rfl, hlen, hcol⟩
  · intro hok
    have hnone : ∀ n, db.faults n = .none := by
      intro n
      have := hok n
      unfold Database.failing at this
      cases hf : db.faults n <;> simp [hf] at this ⊢
    obtain ⟨ws1, hl, hlen, hcol⟩ := hloop (websiteRows db)
      (websiteStatusRows db (websiteRows db).length) (websiteStatusRows_length_le db _)
    exact ⟨⟨true, ws1⟩, by simp [ApiWebsites, readRows, hnone, hl], hlen, hcol⟩

theorem ApiWebsites_in_bounds_witness :
    (ApiWebsites sampleStore).response ≠ .indexOutOfRange ∧
    (∃ body, (ApiWebsites sampleStore).response = .websites body ∧
      body.websites.length = (websiteRows sampleStore).length ∧
      body.websites.map baseColumns =
        (websiteRows sampleStore).map fun w => (w.name, w.protocol, w.url)) ∧
    ApiWebsites interruptedStore =
      ⟨[.websites, .websiteStatus 1],
        .websites ⟨true, [⟨"A", "https", "a.example", "301 - Moved Permanently"⟩]⟩⟩ ∧
    (∃ rows, readRows (interruptedStore.faults 0) (websiteRows interruptedStore) = .ok rows ∧
      (ApiWebsites interruptedStore).queries = [.websites, .websiteStatus rows.length] ∧
      ([⟨"A", "https", "a.example", "301 - Moved Permanently"⟩] : List BasicWebsite).length =
        rows.length ∧
      ([⟨"A", "https", "a.example", "301 - Moved Permanently"⟩] : List BasicWebsite).map
          baseColumns = rows.map fun w => (w.name, w.protocol, w.url)) :=
  ⟨(ApiWebsites_in_bounds sampleStore).2.2.1,
    (ApiWebsites_in_bounds sampleStore).2.2.2.2 (fun _ => rfl),
    by decide,
    (ApiWebsites_in_bounds interruptedStore).2.2.2.1
      ⟨true, [⟨"A", "https", "a.example", "301 - Moved Permanently"⟩]⟩ (by decide)⟩

/-- C1 (evaluation at the failing input): on `skewedStore` the only check of
website "A" is "200 - OK", yet `ApiWebsites` lists "A" with the status of a check
of website "B", because the status statement keeps the newest `totalRows` checks
of all websites instead of the newest check of each; on `uncheckedStore`, where
"A" has no check, "A" is listed with the status of "B" and "B" with none. -/
theorem ApiWebsites_status_misaligned :
    ((ApiWebsites skewedStore).response =
        .websites ⟨true,
          [⟨"A", "https", "a.example", "500 - Internal Server Error"⟩,
            ⟨"B", "http", "b.example", "500 - Internal Server Error"⟩]⟩ ∧
      (skewedStore.checks.filter fun c => c.websiteId == 1) =
        [⟨1, 1, "200", "OK", "12", "2016-01-01 00:00:00"⟩]) ∧
    ((ApiWebsites uncheckedStore).response =
        .websites ⟨true,
          [⟨"A", "https", "a.example", "200 - OK"⟩, ⟨"B", "http", "b.example", ""⟩]⟩ ∧
      (uncheckedStore.checks.filter fun c => c.websiteId == 1) = []) := by
  decide

end UpAndRunning2
